import Mathlib

/-!
Shallow embedding of the Nix lending-CLOB matching and book-keeping engine
(`programs/nix/src`): the I80F48 fixed-point share math, the resting-order and
active-loan records, the claimed-seat balances, and the `place_order` /
`cancel_order` paths of `state/market.rs`, translated function by function
from the Rust source.  Machine integers are modelled as `Nat`/`Int` with
explicit range checks where the source uses checked arithmetic.
-/

namespace Nix

/-! ### I80F48 fixed point (the `fixed` crate's `I80F48`)

A value is carried as its underlying 128-bit two's-complement bit pattern:
the represented number is `bits / 2^48`.  The `fixed` crate computes products
over the full double-width integers and shifts right by 48 (an arithmetic
shift, i.e. floor), and computes quotients as `(a << 48) / b` with Rust's
truncating (toward zero) integer division.  Checked operations fail when the
result leaves the 128-bit range. -/

def fpScale : Int := 2 ^ 48

def fpMaxBits : Int := 2 ^ 127 - 1

def fpMinBits : Int := -(2 ^ 127)

def fpFits (x : Int) : Bool := fpMinBits ≤ x && x ≤ fpMaxBits

/-- `I80F48::from_num` on a nonnegative integer (always in range for `u64`). -/
def fpOfNat (n : Nat) : Int := (n : Int) * fpScale

/-- `I80F48::from_num` on a signed integer. -/
def fpOfInt (i : Int) : Int := i * fpScale

/-- `I80F48::checked_mul`: full-width product shifted right by 48 bits
(arithmetic shift = floor), `none` on overflow. -/
def fpCheckedMul (a b : Int) : Option Int :=
  let r := Int.fdiv (a * b) fpScale
  if fpFits r then some r else none

/-- `I80F48::checked_div`: `(a << 48) / b` with truncating division,
`none` on division by zero or overflow. -/
def fpCheckedDiv (a b : Int) : Option Int :=
  if b = 0 then none
  else
    let r := Int.tdiv (a * fpScale) b
    if fpFits r then some r else none

/-- `I80F48::checked_ceil`: smallest integer-valued fixed-point number that is
greater than or equal to the argument. -/
def fpCheckedCeil (a : Int) : Option Int :=
  let r := Int.fdiv (a + fpScale - 1) fpScale * fpScale
  if fpFits r then some r else none

/-- `I80F48::checked_floor`. -/
def fpCheckedFloor (a : Int) : Option Int :=
  let r := Int.fdiv a fpScale * fpScale
  if fpFits r then some r else none

/-- `I80F48::to_num::<u64>()`: truncate toward zero to an integer and convert.
The source conversion panics when the value is outside `u64` range; the model
returns `none` there. -/
def fpToU64 (a : Int) : Option Nat :=
  let i := Int.tdiv a fpScale
  if 0 ≤ i ∧ i < 2 ^ 64 then some i.toNat else none

/-- Two's-complement wrap-around into the 128-bit range. -/
def wrap128 (x : Int) : Int := (x + 2 ^ 127) % 2 ^ 128 - 2 ^ 127

/-- `I80F48::wrapping_add` (used only for informational volume counters). -/
def fpWrappingAdd (a b : Int) : Int := wrap128 (a + b)

/-! ### Machine-integer checked helpers -/

def u64CheckedAdd (a b : Nat) : Option Nat :=
  if a + b < 2 ^ 64 then some (a + b) else none

def u64CheckedSub (a b : Nat) : Option Nat :=
  if b ≤ a then some (a - b) else none

def u16CheckedMul (a b : Nat) : Option Nat :=
  if a * b < 2 ^ 16 then some (a * b) else none

def u16CheckedDiv (a b : Nat) : Option Nat :=
  if b = 0 then none else some (a / b)

/-! ### Banks and share conversions (`marginfi_utils.rs`) -/

/-- The read-only fixed data of a money-market bank used by the engine:
share values, initial asset/liability weights (all I80F48) and mint
decimals. -/
structure Bank where
  assetShareValue : Int
  liabilityShareValue : Int
  assetWeightInit : Int
  liabilityWeightInit : Int
  mintDecimals : Nat
deriving DecidableEq

/-- `EXP_10_I80F48[d]`, the I80F48 constant `10^d`. -/
def exp10I80F48 (d : Nat) : Int := fpOfNat (10 ^ d)

/-- `convert_tokens_to_asset_shares` (marginfi_utils.rs:693). -/
def convert_tokens_to_asset_shares (tokenAmount : Nat) (bank : Bank) : Option Int :=
  fpCheckedDiv (fpOfNat tokenAmount) bank.assetShareValue

/-- `convert_asset_shares_to_tokens` (marginfi_utils.rs:702): checked mul by
the share value, floor, then `to_num::<u64>`. -/
def convert_asset_shares_to_tokens (assetShares : Int) (bank : Bank) : Option Nat := do
  let p ← fpCheckedMul assetShares bank.assetShareValue
  let f ← fpCheckedFloor p
  fpToU64 f

/-- `convert_tokens_to_liability_shares` (marginfi_utils.rs:783). -/
def convert_tokens_to_liability_shares (tokenAmount : Nat) (bank : Bank) : Option Int :=
  fpCheckedDiv (fpOfNat tokenAmount) bank.liabilityShareValue

/-- `get_token_amount_to_repay_liability_shares` (marginfi_utils.rs:761):
checked mul by the liability share value, ceil, then `to_num::<u64>`. -/
def get_token_amount_to_repay_liability_shares (liabilityShares : Int) (bank : Bank) :
    Option Nat := do
  let p ← fpCheckedMul liabilityShares bank.liabilityShareValue
  let c ← fpCheckedCeil p
  fpToU64 c

/-- `get_required_quote_collateral_to_back_loan` (marginfi_utils.rs:714),
step for step: effective weight, base USD value, required USD, quote tokens,
ceil, `to_num::<u64>`. -/
def get_required_quote_collateral_to_back_loan (baseBank quoteBank : Bank)
    (basePriceUsd quotePriceUsd bufferF : Int) (numBaseAtoms : Nat) : Option Nat := do
  let effectiveWeight ← fpCheckedMul quoteBank.assetWeightInit bufferF
  let bv ← fpCheckedMul (fpOfNat numBaseAtoms) basePriceUsd
  let baseValueUsd ← fpCheckedDiv bv (exp10I80F48 baseBank.mintDecimals)
  let r1 ← fpCheckedMul baseValueUsd baseBank.liabilityWeightInit
  let requiredQuoteUsd ← fpCheckedDiv r1 effectiveWeight
  let r2 ← fpCheckedMul requiredQuoteUsd (exp10I80F48 quoteBank.mintDecimals)
  let requiredTokens ← fpCheckedDiv r2 quotePriceUsd
  let c ← fpCheckedCeil requiredTokens
  fpToU64 c

/-- The LTV buffer factor computed at the top of `place_order`
(market.rs:672): `I80F48::from_num(10000 - ltv_buffer_bps) / 10000`. -/
def ltvBufferFactor (ltvBufferBps : Nat) : Option Int :=
  fpCheckedDiv (fpOfInt (10000 - (ltvBufferBps : Int))) (fpOfNat 10000)

/-! ### Errors

The subset of `NixError` (program/error.rs) reachable from the embedded
paths, plus the two `ProgramError`s those paths raise directly
(`InsufficientFunds` from `update_balance`, `InvalidArgument` from
`reduce_bid`/`reduce_ask`).  A Rust `assert!`/panic is modelled by
`panicked`. -/
inductive NixError where
  | invalidCancel
  | alreadyClaimedSeat
  | postOnlyCrosses
  | alreadyExpired
  | wrongIndexHintParams
  | numericalOverflow
  | missingGlobal
  | invalidGlobalBidOrder
  | maxActiveLoansExceeded
  | invalidAskReverseOrder
  | insufficientFunds
  | invalidArgument
  | panicked
deriving DecidableEq

/-- Decidable equality for fallible results (needed to evaluate the model on
concrete inputs). -/
instance instDecEqExcept {ε α : Type} [DecidableEq ε] [DecidableEq α] :
    DecidableEq (Except ε α) := fun x y =>
  match x, y with
  | Except.ok u, Except.ok v =>
    if h : u = v then isTrue (by rw [h])
    else isFalse (by intro hc; cases hc; exact h rfl)
  | Except.error u, Except.error v =>
    if h : u = v then isTrue (by rw [h])
    else isFalse (by intro hc; cases hc; exact h rfl)
  | Except.ok _, Except.error _ => isFalse (by intro hc; cases hc)
  | Except.error _, Except.ok _ => isFalse (by intro hc; cases hc)

/-- `DataIndex` sentinel `NIL` from the hypertree crate: `u32::MAX`. -/
def NIL : Nat := 2 ^ 32 - 1

/-! ### Order types and resting orders (`state/resting_order.rs`) -/

inductive OrderType where
  | limit
  | immediateOrCancel
  | postOnly
  | global
  | reverse
  | p2p2pool
deriving DecidableEq

/-- `order_type_can_rest` (resting_order.rs:25). -/
def order_type_can_rest (t : OrderType) : Bool := t ≠ OrderType.immediateOrCancel

/-- `order_type_can_take` (resting_order.rs:29). -/
def order_type_can_take (t : OrderType) : Bool :=
  t ≠ OrderType.postOnly && t ≠ OrderType.global

/-- A resting order (resting_order.rs:73).  `collateralShares` is the
maker's collateral for a bid and its liquidity for an ask (token atoms, not
shares, for a global ask); `liabilityShares` is the debt backing a bid. -/
structure RestingOrder where
  collateralShares : Int
  liabilityShares : Int
  rateBps : Nat
  sequenceNumber : Nat
  traderIndex : Nat
  lastValidSlot : Nat
  orderType : OrderType
  isBid : Bool
  isATree : Bool
  reverseSpread : Nat
deriving DecidableEq

namespace RestingOrder

/-- `RestingOrder::new` (resting_order.rs:100).  The source `assert!`s that a
reverse order has no expiration; the panic is modelled as `none`. -/
def new (rateBps : Nat) (sequenceNumber : Nat) (collateralShares liabilityShares : Int)
    (isATree : Bool) (traderIndex : Nat) (lastValidSlot : Nat) (orderType : OrderType)
    (isBid : Bool) (reverseSpread : Nat) : Option RestingOrder :=
  if orderType = OrderType.reverse ∧ lastValidSlot ≠ 0 then none
  else
    some { rateBps, sequenceNumber, collateralShares, liabilityShares, isATree,
           traderIndex, lastValidSlot, orderType, isBid, reverseSpread }

/-- `is_expired` (resting_order.rs:140): a nonzero `last_valid_slot` strictly
before the current slot. -/
def is_expired (o : RestingOrder) (currentSlot : Nat) : Bool :=
  o.lastValidSlot ≠ 0 && o.lastValidSlot < currentSlot

/-- `is_global` (resting_order.rs:150). -/
def is_global (o : RestingOrder) : Bool := o.orderType = OrderType.global

/-- `get_num_base_atoms` (resting_order.rs:167): for a bid the tokens needed
to repay its liability shares (ceil), for an ask the tokens its collateral
shares are worth (floor). -/
def get_num_base_atoms (o : RestingOrder) (baseBank : Bank) : Option Nat :=
  if o.isBid then
    get_token_amount_to_repay_liability_shares o.liabilityShares baseBank
  else
    convert_asset_shares_to_tokens o.collateralShares baseBank

/-- `reduce_bid` (resting_order.rs:186). -/
def reduce_bid (o : RestingOrder) (baseBank quoteBank : Bank)
    (quoteAtomsTraded baseAtomsTraded : Nat) : Except NixError RestingOrder := do
  if ¬o.isBid then throw NixError.invalidArgument
  let collateralDelta ← (convert_tokens_to_asset_shares quoteAtomsTraded quoteBank).elim
    (throw NixError.numericalOverflow) pure
  let liabilityDelta ← (convert_tokens_to_liability_shares baseAtomsTraded baseBank).elim
    (throw NixError.numericalOverflow) pure
  pure { o with collateralShares := o.collateralShares - collateralDelta,
                liabilityShares := o.liabilityShares - liabilityDelta }

/-- `reduce_ask` (resting_order.rs:211). -/
def reduce_ask (o : RestingOrder) (baseBank : Bank) (baseAtomsTraded : Nat) :
    Except NixError RestingOrder := do
  if o.isBid then throw NixError.invalidArgument
  let collateralDelta ← (convert_tokens_to_asset_shares baseAtomsTraded baseBank).elim
    (throw NixError.numericalOverflow) pure
  pure { o with collateralShares := o.collateralShares - collateralDelta,
                liabilityShares := 0 }

end RestingOrder

/-! ### Active loans (`state/market_loan.rs`) -/

inductive LoanStatus where
  | active
  | repaid
  | defaulted
  | liquidated
deriving DecidableEq

/-- An active-loan record (market_loan.rs:132). -/
structure ActiveLoan where
  sequenceNumber : Nat
  lenderIndex : Nat
  borrowerIndex : Nat
  isLenderGlobal : Bool
  status : LoanStatus
  isLiabilityBaseA : Bool
  collateralShares : Int
  liabilityShares : Int
  rateBps : Nat
  startTimestamp : Int
  lastUpdatedSlot : Int
deriving DecidableEq

/-- `ActiveLoan::new_empty` (market_loan.rs:174): sequence number starts at
zero, status `Active`. -/
def ActiveLoan.new_empty (isLiabilityBaseA : Bool) (lenderIndex borrowerIndex : Nat)
    (isLenderGlobal : Bool) (collateralShares liabilityShares : Int) (rateBps : Nat)
    (startTimestamp lastUpdatedSlot : Int) : ActiveLoan :=
  { sequenceNumber := 0, lenderIndex, borrowerIndex, isLenderGlobal,
    status := LoanStatus.active, isLiabilityBaseA, collateralShares,
    liabilityShares, rateBps, startTimestamp, lastUpdatedSlot }

/-- `MAX_ACTIVE_LOANS` (state/constants.rs:62). -/
def MAX_ACTIVE_LOANS : Nat := 5000

/-- The loan-ledger account (market_loan.rs:63), abstracting the slot pool to
the list of stored records. -/
structure MarketLoansState where
  loanSequenceNumber : Nat
  numActiveLoans : Nat
  loans : List ActiveLoan
deriving DecidableEq

/-- `add_loans` (market_loan.rs:261): capacity guard, then insert each record
and bump `num_active_loans`. -/
def MarketLoansState.add_loans (st : MarketLoansState) (loanRecords : List ActiveLoan) :
    Except NixError MarketLoansState :=
  if st.numActiveLoans + loanRecords.length ≤ MAX_ACTIVE_LOANS then
    Except.ok { st with loans := st.loans ++ loanRecords,
                        numActiveLoans := st.numActiveLoans + loanRecords.length }
  else
    throw NixError.maxActiveLoansExceeded

/-! ### Claimed seats (`state/claimed_seat.rs`) -/

/-- A claimed seat; the trader identity (a pubkey in the source) is modelled
as a number. -/
structure ClaimedSeat where
  trader : Nat
  baseAWithdrawableAssetShare : Int
  baseBWithdrawableAssetShare : Int
  baseAVolume : Int
  baseBVolume : Int
deriving DecidableEq

def ClaimedSeat.new_empty (trader : Nat) : ClaimedSeat :=
  { trader, baseAWithdrawableAssetShare := 0, baseBWithdrawableAssetShare := 0,
    baseAVolume := 0, baseBVolume := 0 }

/-! ### Market state (`state/market.rs`)

The packed byte buffer with its red-black trees is abstracted to association
lists: each bookside is kept in tree-walk order (best maker first, i.e. the
in-order maximum first: descending rate for bids, ascending rate for asks),
`seats` maps seat slot indices to claimed seats, and `freeList` is the
allocator's free list of slot indices. -/
structure MarketState where
  baseAOrderSequenceNumber : Nat
  baseBOrderSequenceNumber : Nat
  ltvBufferBps : Nat
  baseAMatchVolume : Int
  baseBMatchVolume : Int
  seats : List (Nat × ClaimedSeat)
  aBids : List (Nat × RestingOrder)
  aAsks : List (Nat × RestingOrder)
  bBids : List (Nat × RestingOrder)
  bAsks : List (Nat × RestingOrder)
  freeList : List Nat
deriving DecidableEq

namespace MarketState

/-- The bookside selected by a tree-pair flag and side flag, mirroring the
dispatch in `insert_order_into_tree` / `remove_order_from_tree`. -/
def getBook (m : MarketState) (useATree isBid : Bool) : List (Nat × RestingOrder) :=
  match useATree, isBid with
  | true, true => m.aBids
  | true, false => m.aAsks
  | false, true => m.bBids
  | false, false => m.bAsks

def setBook (m : MarketState) (useATree isBid : Bool) (book : List (Nat × RestingOrder)) :
    MarketState :=
  match useATree, isBid with
  | true, true => { m with aBids := book }
  | true, false => { m with aAsks := book }
  | false, true => { m with bBids := book }
  | false, false => { m with bAsks := book }

/-- Reading the claimed seat stored at a slot index (`get_helper_seat`).
The source reinterprets raw bytes; the model returns the empty seat when the
index is not a seat slot. -/
def getSeat (m : MarketState) (traderIndex : Nat) : ClaimedSeat :=
  (((m.seats.find? fun p => p.1 == traderIndex).map Prod.snd).getD
    (ClaimedSeat.new_empty 0))

def setSeat (m : MarketState) (traderIndex : Nat) (seat : ClaimedSeat) : MarketState :=
  { m with seats := m.seats.map fun p => if p.1 == traderIndex then (p.1, seat) else p }

/-- `FreeList::remove` through `get_free_address_on_market_fixed`
(market_helpers.rs): pop the free-list head; an empty free list yields
`NIL`. -/
def allocFreeAddress (m : MarketState) : Nat × MarketState :=
  match m.freeList with
  | [] => (NIL, m)
  | a :: rest => (a, { m with freeList := rest })

/-- `release_address_on_market_fixed` (market_helpers.rs): push the slot back
onto the free list. -/
def releaseAddress (m : MarketState) (index : Nat) : MarketState :=
  { m with freeList := index :: m.freeList }

end MarketState

/-- `should_update_base_a` (market.rs:1786), the side-to-asset dispatch
table. -/
def should_update_base_a (useATree isBid : Bool) : Bool :=
  match useATree, isBid with
  | true, true => false
  | true, false => true
  | false, true => true
  | false, false => false

/-- `update_balance` (market.rs:1534): the single mutation point of seat
balances; a decrease below zero fails with `ProgramError::InsufficientFunds`. -/
def update_balance (m : MarketState) (traderIndex : Nat) (updateBaseA isIncrease : Bool)
    (assetShares : Int) : Except NixError MarketState :=
  let seat := m.getSeat traderIndex
  if updateBaseA then
    if isIncrease then
      Except.ok (m.setSeat traderIndex
        { seat with baseAWithdrawableAssetShare :=
            seat.baseAWithdrawableAssetShare + assetShares })
    else if seat.baseAWithdrawableAssetShare ≥ assetShares then
      Except.ok (m.setSeat traderIndex
        { seat with baseAWithdrawableAssetShare :=
            seat.baseAWithdrawableAssetShare - assetShares })
    else throw NixError.insufficientFunds
  else if isIncrease then
    Except.ok (m.setSeat traderIndex
      { seat with baseBWithdrawableAssetShare :=
          seat.baseBWithdrawableAssetShare + assetShares })
  else if seat.baseBWithdrawableAssetShare ≥ assetShares then
    Except.ok (m.setSeat traderIndex
      { seat with baseBWithdrawableAssetShare :=
          seat.baseBWithdrawableAssetShare - assetShares })
  else throw NixError.insufficientFunds

/-- `record_volume_by_trader_index` (market.rs:1584): wrapping add on the
seat's informational volume counter. -/
def record_volume_by_trader_index (m : MarketState) (traderIndex : Nat)
    (amountAtoms : Int) (useATree : Bool) : MarketState :=
  let seat := m.getSeat traderIndex
  if useATree then
    m.setSeat traderIndex { seat with baseAVolume := fpWrappingAdd seat.baseAVolume amountAtoms }
  else
    m.setSeat traderIndex { seat with baseBVolume := fpWrappingAdd seat.baseBVolume amountAtoms }

/-- Insertion position in the walk-ordered bookside list: the tree keeps the
in-order maximum first, so a bid with a strictly higher rate (resp. an ask
with a strictly lower rate) goes in front; equal keys keep the existing
order. -/
def insertWalkOrder (isBidTree : Bool) (book : List (Nat × RestingOrder))
    (entry : Nat × RestingOrder) : List (Nat × RestingOrder) :=
  match book with
  | [] => [entry]
  | x :: xs =>
    if (if isBidTree then x.2.rateBps < entry.2.rateBps else entry.2.rateBps < x.2.rateBps)
    then entry :: x :: xs
    else x :: insertWalkOrder isBidTree xs entry

/-- `insert_order_into_tree` (market.rs:1602): the target tree is selected by
the `use_a_tree` and `is_bid` ARGUMENTS (not by the order's own flags). -/
def insert_order_into_tree (useATree isBid : Bool) (m : MarketState) (freeAddress : Nat)
    (restingOrder : RestingOrder) : MarketState :=
  m.setBook useATree isBid
    (insertWalkOrder isBid (m.getBook useATree isBid) (freeAddress, restingOrder))

/-- `remove_order_from_tree_and_free` (market.rs:1518): remove from the tree
selected by `use_a_tree` and `is_bid`, then push the slot onto the free
list. -/
def remove_order_from_tree_and_free (m : MarketState) (useATree : Bool) (orderIndex : Nat)
    (isBid : Bool) : MarketState :=
  (m.setBook useATree isBid
    ((m.getBook useATree isBid).filter fun p => p.1 != orderIndex)).releaseAddress orderIndex

/-- `remove_from_global` (utils.rs:134): pays the gas prepayment out in
lamports (or forfeits it if the global accounts are absent); it moves no
engine-visible state, so the model keeps it as a successful no-op. -/
def remove_from_global : Except NixError Unit := Except.ok ()

/-- `remove_and_update_balances` (market.rs:1714): global bids are invalid;
global asks settle on the global account; a non-global ask refunds its
collateral shares to the maker's seat; a non-global bid refunds nothing
(its loan is created by the caller).  Then the order is removed and its slot
freed. -/
def remove_and_update_balances (m : MarketState) (useATree : Bool)
    (orderToRemoveIndex : Nat) (order : RestingOrder) : Except NixError MarketState := do
  let isBid := order.isBid
  let m ←
    if order.is_global then
      if isBid then throw NixError.invalidGlobalBidOrder
      else do
        let _ ← remove_from_global
        pure m
    else if !isBid then
      update_balance m order.traderIndex (should_update_base_a useATree isBid) true
        order.collateralShares
    else
      pure m
  pure (remove_order_from_tree_and_free m useATree orderToRemoveIndex isBid)

/-! ### Global liquidity account (`state/global.rs` interface used by the
engine).  Only the depositor balances matter to the matching paths; gas
prepayments are lamport transfers outside the engine state. -/
structure GlobalState where
  balances : List (Nat × Nat)
deriving DecidableEq

namespace GlobalState

def getBalanceAtoms (g : GlobalState) (trader : Nat) : Nat :=
  (((g.balances.find? fun p => p.1 == trader).map Prod.snd).getD 0)

def reduce (g : GlobalState) (trader : Nat) (amount : Nat) : GlobalState :=
  { g with balances := g.balances.map fun p =>
      if p.1 == trader then (p.1, p.2 - amount) else p }

end GlobalState

/-! ### Assertions (`utils.rs`) -/

/-- `assert_already_has_seat` (utils.rs:237): a `NIL` trader index fails with
`AlreadyClaimedSeat`. -/
def assert_already_has_seat (traderIndex : Nat) : Except NixError Unit :=
  if traderIndex ≠ NIL then Except.ok () else throw NixError.alreadyClaimedSeat

/-- `assert_not_already_expired` (utils.rs:217). -/
def assert_not_already_expired (lastValidSlot nowSlot : Nat) : Except NixError Unit :=
  if lastValidSlot = 0 ∨ lastValidSlot > nowSlot then Except.ok ()
  else throw NixError.alreadyExpired

/-- `assert_valid_order_type` (utils.rs:228). -/
def assert_valid_order_type (orderType : OrderType) (isBid : Bool) : Except NixError Unit :=
  if isBid ∧ orderType = OrderType.global then throw NixError.invalidGlobalBidOrder
  else if ¬isBid ∧ orderType = OrderType.reverse then throw NixError.invalidAskReverseOrder
  else Except.ok ()

/-- `assert_can_take` (utils.rs:125). -/
def assert_can_take (orderType : OrderType) : Except NixError Unit :=
  if order_type_can_take orderType then Except.ok () else throw NixError.postOnlyCrosses

/-- Lift a checked-arithmetic result, `ok_or(NixError::NumericalOverflow)`. -/
def orOverflow {α : Type} (o : Option α) : Except NixError α :=
  o.elim (throw NixError.numericalOverflow) pure

/-! ### `place_order` (market.rs:612) -/

/-- The call context that is constant throughout one `place_order` call: the
two banks' fixed data, the two low-biased oracle prices, the clock, and the
global-account bindings (presence flags plus the token-2022 transfer-fee /
transfer-hook conditions checked by `try_to_move_global_tokens`).  External
money-market CPIs are collaborators per the interface contract and are
modelled as succeeding without engine-visible state change. -/
structure PlaceOrderEnv where
  baseBank : Bank
  quoteBank : Bank
  basePriceUsd : Int
  quotePriceUsd : Int
  nowSlot : Nat
  nowUnixTimestamp : Int
  hasGlobalAccounts0 : Bool
  mintHasTransferFee : Bool
  mintHasTransferHook : Bool
deriving DecidableEq

/-- The taker parameters of `AddOrderToMarketArgs` (market.rs:106). -/
structure PlaceOrderArgs where
  traderIndex : Nat
  numBaseAtoms : Nat
  rateBps : Nat
  reverseSpreadBps : Nat
  isBid : Bool
  useATree : Bool
  lastValidSlot : Nat
  orderType : OrderType
deriving DecidableEq

structure AddOrderToMarketResult where
  orderSequenceNumber : Nat
  orderIndex : Nat
  baseAtomsTraded : Nat
  quoteAtomsTraded : Nat
  matchedLoans : List ActiveLoan
deriving DecidableEq

/-- The mutable state threaded through the matching loop. -/
structure MatchState where
  market : MarketState
  global : GlobalState
  remainingBaseAtoms : Nat
  totalBaseAtomsTraded : Nat
  totalQuoteAtomsTraded : Nat
  globalBaseAtomsTraded : Nat
  globalQuoteAtomsTraded : Nat
  newLoans : List ActiveLoan
deriving DecidableEq

/-- `try_to_move_global_tokens` (utils.rs:246): an under-deposited maker (or
a mint with a transfer fee or transfer hook) is reported unbacked; otherwise
the desired atoms move from the global vault and the maker's balance is
reduced. -/
def try_to_move_global_tokens (env : PlaceOrderEnv) (g : GlobalState)
    (restingOrderTrader : Nat) (desiredGlobalAtoms : Nat) :
    Except NixError (Bool × GlobalState) :=
  if ¬env.hasGlobalAccounts0 then throw NixError.missingGlobal
  else
    let deposited := g.getBalanceAtoms restingOrderTrader
    if desiredGlobalAtoms > deposited then Except.ok (false, g)
    else if env.mintHasTransferFee then Except.ok (false, g)
    else if env.mintHasTransferHook then Except.ok (false, g)
    else Except.ok (true, g.reduce restingOrderTrader desiredGlobalAtoms)

/-- One successful match against the maker at `(makerIndex, maker)`:
running totals, share conversions, taker balance updates, volume records,
then either full consumption (tree removal, slot free, loan emission) or an
in-place reduction of the maker.  Returns the updated state and whether the
maker was fully consumed (market.rs:816-977). -/
def matchFill (env : PlaceOrderEnv) (args : PlaceOrderArgs) (makerIndex : Nat)
    (maker : RestingOrder) (isMakerGlobal : Bool) (baseAtomsTraded quoteAtomsTraded : Nat)
    (matchedRate : Nat) (didFullyMatch : Bool) (st : MatchState) :
    Except NixError (MatchState × Bool) := do
  let totalBase ← orOverflow (u64CheckedAdd st.totalBaseAtomsTraded baseAtomsTraded)
  let totalQuote ← orOverflow (u64CheckedAdd st.totalQuoteAtomsTraded quoteAtomsTraded)
  let baseShares ← orOverflow (convert_tokens_to_asset_shares baseAtomsTraded env.baseBank)
  let quoteShares ← orOverflow (convert_tokens_to_asset_shares quoteAtomsTraded env.quoteBank)
  let m ← update_balance st.market args.traderIndex
    (should_update_base_a args.useATree (!args.isBid)) false
    (if args.isBid then quoteShares else baseShares)
  let m ←
    if args.isBid ∧ args.orderType ≠ OrderType.reverse then do
      let _ ← assert_not_already_expired args.lastValidSlot env.nowSlot
      update_balance m args.traderIndex (should_update_base_a args.useATree args.isBid) true
        (if args.isBid then baseShares else quoteShares)
    else pure m
  let m := record_volume_by_trader_index m maker.traderIndex baseShares args.useATree
  let m := record_volume_by_trader_index m args.traderIndex baseShares args.useATree
  if didFullyMatch then do
    let _ ← if isMakerGlobal then remove_from_global else Except.ok ()
    let m := remove_order_from_tree_and_free m args.useATree makerIndex (!args.isBid)
    let remaining ← orOverflow (u64CheckedSub st.remainingBaseAtoms baseAtomsTraded)
    let activeLoan := ActiveLoan.new_empty args.useATree
      (if args.isBid then makerIndex else args.traderIndex)
      (if args.isBid then args.traderIndex else makerIndex)
      (if args.isBid then isMakerGlobal else args.orderType = OrderType.global)
      quoteShares baseShares matchedRate env.nowUnixTimestamp env.nowSlot
    pure ({ st with
              market := m
              remainingBaseAtoms := remaining
              totalBaseAtomsTraded := totalBase
              totalQuoteAtomsTraded := totalQuote
              newLoans := st.newLoans ++ [activeLoan] }, true)
  else do
    let makerReduced ←
      if maker.isBid then maker.reduce_bid env.baseBank env.quoteBank quoteAtomsTraded baseAtomsTraded
      else maker.reduce_ask env.baseBank baseAtomsTraded
    let m := m.setBook args.useATree (!args.isBid)
      ((m.getBook args.useATree (!args.isBid)).map fun p =>
        if p.1 == makerIndex then (p.1, makerReduced) else p)
    pure ({ st with
              market := m
              remainingBaseAtoms := 0
              totalBaseAtomsTraded := totalBase
              totalQuoteAtomsTraded := totalQuote }, false)

/-- The matching loop of `place_order` (market.rs:686-978), as structural
recursion over the walk (tree in-order, best first) of the opposite
bookside.  Expired or zero-collateral makers are evicted (bids become direct
protocol loans) before the rate limit is compared; then post-only and global
takers fail on a cross; global makers are just-in-time funded or evicted;
fills update balances and emit loans. -/
def matchLoop (env : PlaceOrderEnv) (args : PlaceOrderArgs) (bufferF : Int) :
    List (Nat × RestingOrder) → MatchState → Except NixError MatchState
  | [], st => Except.ok st
  | (makerIndex, maker) :: rest, st =>
    if st.remainingBaseAtoms = 0 then Except.ok st
    else if maker.is_expired env.nowSlot || decide (maker.collateralShares = 0) then do
      let st :=
        if maker.isBid then
          { st with newLoans := st.newLoans ++
              [ActiveLoan.new_empty args.useATree 0 makerIndex maker.is_global
                maker.collateralShares maker.liabilityShares 0 env.nowUnixTimestamp
                env.nowSlot] }
        else st
      let m ← remove_and_update_balances st.market args.useATree makerIndex maker
      matchLoop env args bufferF rest { st with market := m }
    else if (args.isBid ∧ maker.rateBps > args.rateBps)
        ∨ (¬args.isBid ∧ maker.rateBps < args.rateBps) then
      Except.ok st
    else do
      let _ ← assert_can_take args.orderType
      let makerBaseAtoms ← orOverflow (maker.get_num_base_atoms env.baseBank)
      let didFullyMatch := decide (st.remainingBaseAtoms ≥ makerBaseAtoms)
      let baseAtomsTraded := if didFullyMatch then makerBaseAtoms else st.remainingBaseAtoms
      let matchedRate := maker.rateBps
      let quoteAtomsTraded ← orOverflow (get_required_quote_collateral_to_back_loan
        env.baseBank env.quoteBank env.basePriceUsd env.quotePriceUsd bufferF baseAtomsTraded)
      let isMakerGlobal := maker.is_global
      if isMakerGlobal then do
        let makerTrader := (st.market.getSeat maker.traderIndex).trader
        let (hasEnoughTokens, g) ←
          try_to_move_global_tokens env st.global makerTrader baseAtomsTraded
        if !hasEnoughTokens then do
          let m ← remove_and_update_balances st.market args.useATree makerIndex maker
          matchLoop env args bufferF rest { st with market := m, global := g }
        else do
          let st ←
            if args.isBid then do
              let gb ← orOverflow (u64CheckedAdd st.globalBaseAtomsTraded baseAtomsTraded)
              pure { st with global := g, globalBaseAtomsTraded := gb }
            else do
              let gq ← orOverflow (u64CheckedAdd st.globalQuoteAtomsTraded quoteAtomsTraded)
              pure { st with global := g, globalQuoteAtomsTraded := gq }
          let (st, fullyMatched) ← matchFill env args makerIndex maker isMakerGlobal
            baseAtomsTraded quoteAtomsTraded matchedRate didFullyMatch st
          if fullyMatched then matchLoop env args bufferF rest st else Except.ok st
      else do
        let (st, fullyMatched) ← matchFill env args makerIndex maker isMakerGlobal
          baseAtomsTraded quoteAtomsTraded matchedRate didFullyMatch st
        if fullyMatched then matchLoop env args bufferF rest st else Except.ok st

/-- `rest_remaining` (market.rs:1206): allocate a slot, construct the resting
order, register a global ask on the global account (global bids are invalid)
or debit the taker's seat by the remaining collateral shares, then insert
into the tree pair and side given by the arguments. -/
def restRemaining (env : PlaceOrderEnv) (args : PlaceOrderArgs) (m : MarketState)
    (g : GlobalState) (remainingCollateralShares remainingLiabilityShares : Int)
    (orderSequenceNumber totalBaseAtomsTraded totalQuoteAtomsTraded : Nat)
    (loans : List ActiveLoan) :
    Except NixError (AddOrderToMarketResult × MarketState × GlobalState) := do
  let _ ← assert_valid_order_type args.orderType args.isBid
  let (freeAddress, m) := m.allocFreeAddress
  let restingOrder ← (RestingOrder.new args.rateBps orderSequenceNumber
    remainingCollateralShares remainingLiabilityShares args.useATree args.traderIndex
    args.lastValidSlot args.orderType args.isBid 0).elim (throw NixError.panicked) pure
  let (m, g) ←
    if restingOrder.is_global then
      if args.isBid then throw NixError.invalidGlobalBidOrder
      else if ¬env.hasGlobalAccounts0 then throw NixError.missingGlobal
      else
        -- `try_to_add_to_global` (utils.rs:179) records the order and its gas
        -- prepayment on the global account; no market-side state changes.
        pure (m, g)
    else do
      let m ← update_balance m args.traderIndex
        (should_update_base_a args.useATree (!args.isBid)) false remainingCollateralShares
      pure (m, g)
  let m := insert_order_into_tree args.useATree args.isBid m freeAddress restingOrder
  pure ({ orderSequenceNumber := orderSequenceNumber
          orderIndex := freeAddress
          baseAtomsTraded := totalBaseAtomsTraded
          quoteAtomsTraded := totalQuoteAtomsTraded
          matchedLoans := loans }, m, g)

/-- The tail of `place_order` after the reverse branch (market.rs:1153-1203):
the remaining collateral and liability shares of the residual order, then
`rest_remaining`. -/
def placeOrderRestTail (env : PlaceOrderEnv) (args : PlaceOrderArgs) (m : MarketState)
    (g : GlobalState) (st : MatchState) (orderSequenceNumber : Nat) (bufferF : Int) :
    Except NixError (AddOrderToMarketResult × MarketState × GlobalState) := do
  let remainingQuoteAtoms ←
    if args.isBid then
      orOverflow (get_required_quote_collateral_to_back_loan env.baseBank env.quoteBank
        env.basePriceUsd env.quotePriceUsd bufferF st.remainingBaseAtoms)
    else pure 0
  let (remainingCollateralShares, remainingLiabilityShares) ←
    if args.isBid then do
      let c ← orOverflow (convert_tokens_to_asset_shares remainingQuoteAtoms env.quoteBank)
      let l ← orOverflow
        (convert_tokens_to_liability_shares st.remainingBaseAtoms env.baseBank)
      pure (c, l)
    else if args.orderType = OrderType.global then
      -- Global-order collateral shares are stored in token form.
      pure (fpOfNat st.remainingBaseAtoms, (0 : Int))
    else do
      let c ← orOverflow
        (convert_tokens_to_asset_shares st.remainingBaseAtoms env.baseBank)
      pure (c, (0 : Int))
  restRemaining env args m g remainingCollateralShares remainingLiabilityShares
    orderSequenceNumber st.totalBaseAtomsTraded st.totalQuoteAtomsTraded st.newLoans

/-- `place_order` (market.rs:612): preconditions, the matching loop against
the opposite bookside, market volume accounting, the single sequence-number
bump of the chosen tree pair, the early return for IOC / exhausted /
zero-rate orders, the money-market CPI phase (external, no engine state),
the reverse self-repost branch, and resting of the remainder. -/
def placeOrder (env : PlaceOrderEnv) (args : PlaceOrderArgs) (m : MarketState)
    (g : GlobalState) :
    Except NixError (AddOrderToMarketResult × MarketState × GlobalState) := do
  let _ ← assert_already_has_seat args.traderIndex
  let _ ← assert_not_already_expired args.lastValidSlot env.nowSlot
  let _ ← assert_valid_order_type args.orderType args.isBid
  let bufferF ← orOverflow (ltvBufferFactor m.ltvBufferBps)
  let st ← matchLoop env args bufferF (m.getBook args.useATree (!args.isBid))
    { market := m
      global := g
      remainingBaseAtoms := args.numBaseAtoms
      totalBaseAtomsTraded := 0
      totalQuoteAtomsTraded := 0
      globalBaseAtomsTraded := 0
      globalQuoteAtomsTraded := 0
      newLoans := [] }
  let m := st.market
  let g := st.global
  -- Record volume on the market (wrapping, informational).
  let m :=
    if args.useATree then
      { m with baseAMatchVolume :=
          fpWrappingAdd m.baseAMatchVolume (fpOfNat st.totalBaseAtomsTraded) }
    else
      { m with baseBMatchVolume :=
          fpWrappingAdd m.baseBMatchVolume (fpOfNat st.totalBaseAtomsTraded) }
  -- Bump the order sequence number even for orders which do not end up resting.
  let (orderSequenceNumber, m) :=
    if args.useATree then
      let s := (m.baseAOrderSequenceNumber + 1) % 2 ^ 64
      (s, { m with baseAOrderSequenceNumber := s })
    else
      let s := (m.baseBOrderSequenceNumber + 1) % 2 ^ 64
      (s, { m with baseBOrderSequenceNumber := s })
  -- If there is nothing left to rest, return before resting.
  if ¬order_type_can_rest args.orderType ∨ st.remainingBaseAtoms = 0 ∨ args.rateBps = 0 then
    pure ({ orderSequenceNumber := orderSequenceNumber
            orderIndex := NIL
            baseAtomsTraded := st.totalBaseAtomsTraded
            quoteAtomsTraded := st.totalQuoteAtomsTraded
            matchedLoans := st.newLoans }, m, g)
  else do
    -- The borrow/deposit (bid) or withdraw/repay (ask) money-market CPIs run
    -- here; they are external collaborators with no engine-visible state.
    if args.isBid ∧ args.orderType = OrderType.reverse then do
      -- New Ask @R from Bid @R * (1 - spread), in u16 checked arithmetic.
      let reverseRate ← orOverflow (do
        let v ← u16CheckedMul args.rateBps (10000 - args.reverseSpreadBps)
        u16CheckedDiv v 10000)
      let reverseBaseAtoms ← orOverflow (u64CheckedAdd st.totalBaseAtomsTraded
        (st.globalBaseAtomsTraded + st.remainingBaseAtoms))
      let totalReverseBaseShares ← orOverflow
        (convert_tokens_to_asset_shares reverseBaseAtoms env.baseBank)
      if 0 < totalReverseBaseShares then do
        -- Place the reverse order on the alternative book side: bump the
        -- OTHER tree pair's sequence number ...
        let (reverseOrderSequenceNumber, m) :=
          if args.useATree then
            let s := (m.baseBOrderSequenceNumber + 1) % 2 ^ 64
            (s, { m with baseBOrderSequenceNumber := s })
          else
            let s := (m.baseAOrderSequenceNumber + 1) % 2 ^ 64
            (s, { m with baseAOrderSequenceNumber := s })
        let (freeAddress, m) := m.allocFreeAddress
        let newReverseRestingOrder ← (RestingOrder.new reverseRate
          reverseOrderSequenceNumber totalReverseBaseShares 0 (!args.useATree)
          args.traderIndex args.lastValidSlot OrderType.limit (!args.isBid) 0).elim
          (throw NixError.panicked) pure
        -- ... but insert with the ORIGINAL `use_a_tree`/`is_bid` arguments,
        -- exactly as market.rs:1133 does.
        let m := insert_order_into_tree args.useATree args.isBid m freeAddress
          newReverseRestingOrder
        pure ({ orderSequenceNumber := orderSequenceNumber
                orderIndex := freeAddress
                baseAtomsTraded := st.totalBaseAtomsTraded
                quoteAtomsTraded := st.totalQuoteAtomsTraded
                matchedLoans := st.newLoans }, m, g)
      else
        placeOrderRestTail env args m g st orderSequenceNumber bufferF
    else
      placeOrderRestTail env args m g st orderSequenceNumber bufferF

/-! ### Cancel path (`market.rs:1296-1423`) -/

/-- Locate the resting order stored at a slot index (the source reads the
slot's bytes directly via `get_helper_order`; the model searches the four
booksides). -/
def findOrderByIndex (m : MarketState) (orderIndex : Nat) : Option RestingOrder :=
  (((m.aBids ++ m.aAsks ++ m.bBids ++ m.bAsks).find? fun p => p.1 == orderIndex).map
    Prod.snd)

/-- `cancel_order_by_index` (market.rs:1369): a global ask refunds its gas
prepayment on the global account; a non-global bid becomes an active loan
(lender index 0 = the underlying protocol, rate 0) appended to the loan
ledger; a non-global ask credits the maker's seat with its collateral
shares.  Then the order is removed from the tree and its slot freed.  The
model is defined on indices that hold a resting order. -/
def cancel_order_by_index (m : MarketState) (ledger : MarketLoansState) (useATree : Bool)
    (orderIndex : Nat) (nowUnixTimestamp nowSlot : Int) :
    Except NixError (MarketState × MarketLoansState) := do
  match findOrderByIndex m orderIndex with
  | none => throw NixError.invalidCancel
  | some restingOrder =>
    let isBid := restingOrder.isBid
    let (m, ledger) ←
      if restingOrder.is_global then
        if isBid then throw NixError.invalidGlobalBidOrder
        else do
          let _ ← remove_from_global
          pure (m, ledger)
      else if isBid then do
        let newActiveLoan := ActiveLoan.new_empty useATree 0 restingOrder.traderIndex
          false restingOrder.collateralShares restingOrder.liabilityShares 0
          nowUnixTimestamp nowSlot
        -- `expand_market_loans` grows the ledger account by one slot, then
        -- `try_to_add_new_loans` appends the record.
        let ledger ← ledger.add_loans [newActiveLoan]
        pure (m, ledger)
      else do
        let m ← update_balance m restingOrder.traderIndex
          (should_update_base_a useATree false) true restingOrder.collateralShares
        pure (m, ledger)
    pure (remove_order_from_tree_and_free m useATree orderIndex isBid, ledger)

/-- The linear scan of `cancel_order` over one bookside: a sequence-number
match must belong to the cancelling trader and must be the only one, else
`InvalidCancel`. -/
def scanForSequenceNumber (traderIndex orderSequenceNumber : Nat) :
    List (Nat × RestingOrder) → Nat → Except NixError Nat
  | [], acc => Except.ok acc
  | (index, restingOrder) :: rest, acc =>
    if restingOrder.sequenceNumber = orderSequenceNumber then
      if restingOrder.traderIndex ≠ traderIndex then throw NixError.invalidCancel
      else if acc ≠ NIL then throw NixError.invalidCancel
      else scanForSequenceNumber traderIndex orderSequenceNumber rest index
    else scanForSequenceNumber traderIndex orderSequenceNumber rest acc

/-- `cancel_order` (market.rs:1297): scan the ask side then the bid side of
the chosen tree pair for the sequence number, then delegate to
`cancel_order_by_index`; no match fails loudly with `InvalidCancel`. -/
def cancel_order (m : MarketState) (ledger : MarketLoansState) (useATree : Bool)
    (traderIndex orderSequenceNumber : Nat) (nowUnixTimestamp nowSlot : Int) :
    Except NixError (MarketState × MarketLoansState) := do
  let idx ← scanForSequenceNumber traderIndex orderSequenceNumber
    (m.getBook useATree false) NIL
  let idx ← scanForSequenceNumber traderIndex orderSequenceNumber
    (m.getBook useATree true) idx
  if idx ≠ NIL then cancel_order_by_index m ledger useATree idx nowUnixTimestamp nowSlot
  else throw NixError.invalidCancel

/-! ### Concrete scenario data

A two-asset market in the configuration of the specification's end-to-end
scenarios: six decimals on both sides, both share values and both weights
`1.0`, both oracle prices `1.0` USD, LTV buffer 500 bps. -/

/-- A bank with 6 decimals, share values and initial weights all `1.0`. -/
def sixDecimalUnitBank : Bank :=
  { assetShareValue := fpOfNat 1, liabilityShareValue := fpOfNat 1,
    assetWeightInit := fpOfNat 1, liabilityWeightInit := fpOfNat 1, mintDecimals := 6 }

/-- A bank whose asset share value is `3 * 2^48` (i.e. three times `2^48`
atoms per share) — positive but large. -/
def largeShareValueBank : Bank :=
  { assetShareValue := 3 * 2 ^ 96, liabilityShareValue := fpOfNat 1,
    assetWeightInit := fpOfNat 1, liabilityWeightInit := fpOfNat 1, mintDecimals := 6 }

/-- The standard scenario call context: unit banks and prices, current slot
10, timestamp 1000, global accounts present, a plain mint. -/
def scenarioEnv : PlaceOrderEnv :=
  { baseBank := sixDecimalUnitBank, quoteBank := sixDecimalUnitBank,
    basePriceUsd := fpOfNat 1, quotePriceUsd := fpOfNat 1, nowSlot := 10,
    nowUnixTimestamp := 1000, hasGlobalAccounts0 := true,
    mintHasTransferFee := false, mintHasTransferHook := false }

/-- The maker's seat (slot 32): ten million shares on both sides. -/
def scenarioMakerSeat : ClaimedSeat :=
  { trader := 1001, baseAWithdrawableAssetShare := fpOfNat 10000000,
    baseBWithdrawableAssetShare := fpOfNat 10000000, baseAVolume := 0, baseBVolume := 0 }

/-- The taker's seat (slot 96): ten million shares on both sides. -/
def scenarioTakerSeat : ClaimedSeat :=
  { trader := 2002, baseAWithdrawableAssetShare := fpOfNat 10000000,
    baseBWithdrawableAssetShare := fpOfNat 10000000, baseAVolume := 0, baseBVolume := 0 }

/-- A resting limit ask on tree A by the maker at seat 32 for the given
number of base atoms (at share value `1.0`) and rate. -/
def scenarioLimitAsk (atoms rate : Nat) : RestingOrder :=
  { collateralShares := fpOfNat atoms, liabilityShares := 0, rateBps := rate,
    sequenceNumber := 1, traderIndex := 32, lastValidSlot := 0,
    orderType := OrderType.limit, isBid := false, isATree := true, reverseSpread := 0 }

/-- A global ask on tree A by the maker at seat 32 for 5 atoms, already
expired (last valid slot 5 < current slot 10). -/
def scenarioExpiredGlobalAsk : RestingOrder :=
  { collateralShares := fpOfNat 5, liabilityShares := 0, rateBps := 500,
    sequenceNumber := 1, traderIndex := 32, lastValidSlot := 5,
    orderType := OrderType.global, isBid := false, isATree := true, reverseSpread := 0 }

/-- A market whose only order is the given tree-A ask, stored at slot 160. -/
def scenarioMarket (ask : RestingOrder) : MarketState :=
  { baseAOrderSequenceNumber := 0, baseBOrderSequenceNumber := 0, ltvBufferBps := 500,
    baseAMatchVolume := 0, baseBMatchVolume := 0,
    seats := [(32, scenarioMakerSeat), (96, scenarioTakerSeat)],
    aBids := [], aAsks := [(160, ask)], bBids := [], bAsks := [], freeList := [] }

def emptyGlobal : GlobalState := { balances := [] }

/-- Taker arguments for the simple limit-fill scenario: bid, tree A, one
million base atoms at 600 bps. -/
def limitBidArgs : PlaceOrderArgs :=
  { traderIndex := 96, numBaseAtoms := 1000000, rateBps := 600, reverseSpreadBps := 0,
    isBid := true, useATree := true, lastValidSlot := 0, orderType := OrderType.limit }

/-- Taker arguments for the reverse scenario: reverse bid, tree A, 500000
base atoms at 600 bps with a 100 bps reverse spread. -/
def reverseBidArgs : PlaceOrderArgs :=
  { traderIndex := 96, numBaseAtoms := 500000, rateBps := 600, reverseSpreadBps := 100,
    isBid := true, useATree := true, lastValidSlot := 0, orderType := OrderType.reverse }

/-- Taker arguments for a reverse bid small enough to dodge the u16 rate
overflow: 500000 base atoms at 6 bps with a 100 bps reverse spread. -/
def smallRateReverseBidArgs : PlaceOrderArgs :=
  { traderIndex := 96, numBaseAtoms := 500000, rateBps := 6, reverseSpreadBps := 100,
    isBid := true, useATree := true, lastValidSlot := 0, orderType := OrderType.reverse }

/-- Taker arguments for an immediate-or-cancel bid of 100 atoms at 600 bps. -/
def iocBidArgs : PlaceOrderArgs :=
  { traderIndex := 96, numBaseAtoms := 100, rateBps := 600, reverseSpreadBps := 0,
    isBid := true, useATree := true, lastValidSlot := 0,
    orderType := OrderType.immediateOrCancel }

/-- A resting non-global limit bid on tree A by the maker at seat 32:
collateral 5 shares, liability 3 shares, rate 700, sequence number 7. -/
def scenarioRestingBid : RestingOrder :=
  { collateralShares := fpOfNat 5, liabilityShares := fpOfNat 3, rateBps := 700,
    sequenceNumber := 7, traderIndex := 32, lastValidSlot := 0,
    orderType := OrderType.limit, isBid := true, isATree := true, reverseSpread := 0 }

/-- A market whose only order is `scenarioRestingBid` at slot 160. -/
def scenarioBidMarket : MarketState :=
  { baseAOrderSequenceNumber := 9, baseBOrderSequenceNumber := 4, ltvBufferBps := 500,
    baseAMatchVolume := 0, baseBMatchVolume := 0,
    seats := [(32, scenarioMakerSeat), (96, scenarioTakerSeat)],
    aBids := [(160, scenarioRestingBid)], aAsks := [], bBids := [], bAsks := [],
    freeList := [] }

/-- An empty loan ledger. -/
def emptyLedger : MarketLoansState :=
  { loanSequenceNumber := 0, numActiveLoans := 0, loans := [] }

/-- Taker arguments for a post-only bid of 1_000_000 atoms at 600 bps. -/
def postOnlyBidArgs : PlaceOrderArgs :=
  { traderIndex := 96, numBaseAtoms := 1000000, rateBps := 600, reverseSpreadBps := 0,
    isBid := true, useATree := true, lastValidSlot := 0, orderType := OrderType.postOnly }

/-- An expired variant of `scenarioRestingBid` (last valid slot 5). -/
def scenarioExpiredBid : RestingOrder :=
  { scenarioRestingBid with lastValidSlot := 5 }

/-- The starting matching-loop state of a 100-atom taker against
`scenarioBidMarket`. -/
def scenarioMatchState : MatchState :=
  { market := scenarioBidMarket, global := emptyGlobal, remainingBaseAtoms := 100,
    totalBaseAtomsTraded := 0, totalQuoteAtomsTraded := 0, globalBaseAtomsTraded := 0,
    globalQuoteAtomsTraded := 0, newLoans := [] }

set_option maxRecDepth 100000

/-! ### Generic `Except` helper lemmas -/

theorem except_pure_eq_ok {ε α : Type} {a b : α} :
    (pure a : Except ε α) = Except.ok b ↔ a = b := by
  constructor
  · intro h
    cases h
    rfl
  · intro h
    cases h
    rfl

theorem except_throw_ne_ok {ε α : Type} {e : ε} {b : α} :
    (throw e : Except ε α) = Except.ok b ↔ False := by
  constructor
  · intro h
    cases h
  · intro h
    cases h

theorem except_bind_eq_ok {ε α β : Type} {x : Except ε α} {f : α → Except ε β} {b : β} :
    (x >>= f) = Except.ok b ↔ ∃ a, x = Except.ok a ∧ f a = Except.ok b := by
  cases x with
  | ok a =>
    constructor
    · intro h
      exact ⟨a, rfl, h⟩
    · rintro ⟨a', ha, hf⟩
      cases ha
      exact hf
  | error e =>
    constructor
    · intro h
      cases h
    · rintro ⟨a', ha, _⟩
      cases ha

theorem except_throw_bind {ε α β : Type} {e : ε} {f : α → Except ε β} :
    ((throw e : Except ε α) >>= f) = throw e := rfl

theorem except_ok_bind {ε α β : Type} {a : α} {f : α → Except ε β} :
    ((Except.ok a : Except ε α) >>= f) = f a := rfl

theorem except_error_bind {ε α β : Type} {e : ε} {f : α → Except ε β} :
    ((Except.error e : Except ε α) >>= f) = Except.error e := rfl

theorem except_pure_bind {ε α β : Type} {a : α} {f : α → Except ε β} :
    ((pure a : Except ε α) >>= f) = f a := rfl

/-! ### C4: required quote collateral -/

/-- C4: `get_required_quote_collateral_to_back_loan`, fed the LTV buffer
factor that `place_order` computes for a 500 bps buffer, returns 1_052_632
quote atoms for 1_000_000 base atoms when both banks have 6 decimals, both
oracle prices are 1.0 USD and both weights are 1.0 — and this agrees with
the exact rational `ceil(1_000_000 * 10000 / 9500)`. -/
theorem required_quote_collateral_concrete_value :
    ((ltvBufferFactor 500).bind fun b =>
      get_required_quote_collateral_to_back_loan sixDecimalUnitBank sixDecimalUnitBank
        (fpOfNat 1) (fpOfNat 1) b 1000000) = some 1052632
    ∧ (1000000 * 10000 + 9500 - 1) / 9500 = 1052632 := by
  decide

/-! ### C10: the missing-seat error code -/

/-- C10: a `place_order` call whose looked-up trader index is `NIL` (the
taker has no claimed seat) fails with `AlreadyClaimedSeat`, the same code
raised for a duplicate seat claim. -/
theorem missing_seat_error_code (env : PlaceOrderEnv) (args : PlaceOrderArgs)
    (m : MarketState) (g : GlobalState) (h : args.traderIndex = NIL) :
    placeOrder env args m g = Except.error NixError.alreadyClaimedSeat := by
  have hassert : assert_already_has_seat args.traderIndex =
      Except.error NixError.alreadyClaimedSeat := by
    simp [assert_already_has_seat, h, throw, throwThe, MonadExceptOf.throw]
  simp [placeOrder, hassert, except_throw_bind]
  rfl

theorem missing_seat_error_code_witness :
    placeOrder scenarioEnv { iocBidArgs with traderIndex := NIL }
      (scenarioMarket (scenarioLimitAsk 1000000 500)) emptyGlobal =
    Except.error NixError.alreadyClaimedSeat :=
  missing_seat_error_code _ _ _ _ rfl

/-! ### C1: the reverse repost rate -/

/-- C1 (evidence): a Reverse bid at 600 bps with a 100 bps spread that fully
fills a resting 500_000-atom ask returns with `remaining == 0` BEFORE the
reverse branch, so no repost happens at all (every bookside is left empty
and no order index is returned); a variant that leaves a positive remainder
reaches the reverse branch but dies with `NumericalOverflow`, because the
rate arithmetic is done in `u16` and `600 * (10000 - 100) ≥ 2^16`.  The
spec-mandated repost at rate `floor(600 * 9900 / 10000) = 594` never
happens. -/
theorem reverse_repost_rate_bug_evidence :
    ((placeOrder scenarioEnv reverseBidArgs (scenarioMarket (scenarioLimitAsk 500000 550))
        emptyGlobal).toOption.map fun r => r.1.orderIndex) = some NIL
    ∧ ((placeOrder scenarioEnv reverseBidArgs (scenarioMarket (scenarioLimitAsk 500000 550))
        emptyGlobal).toOption.map fun r => (r.2.1.aBids, r.2.1.aAsks)) = some ([], [])
    ∧ ((placeOrder scenarioEnv reverseBidArgs (scenarioMarket (scenarioLimitAsk 500000 550))
        emptyGlobal).toOption.map fun r => (r.2.1.bBids, r.2.1.bAsks)) = some ([], [])
    ∧ placeOrder scenarioEnv reverseBidArgs (scenarioMarket (scenarioLimitAsk 300000 550))
        emptyGlobal = Except.error NixError.numericalOverflow
    ∧ u16CheckedMul 600 (10000 - 100) = none
    ∧ (600 * (10000 - 100)) / 10000 = 594 := by
  decide

/-! ### C2: where the reverse repost is inserted -/

/-- C2 (evidence): a Reverse bid at 6 bps (small enough to dodge the u16
overflow) that consumes a 300_000-atom ask and keeps a 200_000-atom
remainder does reach the repost.  The reposted order itself is flagged as an
ask on the opposite tree pair (`isBid = false`, `isATree = false`) and the
opposite pair's sequence number is bumped to 1, but the order is inserted
into the SAME pair's BID tree (`aBids`), leaving the opposite pair's ask
tree (`bAsks`) empty. -/
theorem reverse_repost_tree_bug_evidence :
    ((placeOrder scenarioEnv smallRateReverseBidArgs
        (scenarioMarket (scenarioLimitAsk 300000 5)) emptyGlobal).toOption.map fun r =>
      r.2.1.bAsks) = some []
    ∧ ((placeOrder scenarioEnv smallRateReverseBidArgs
        (scenarioMarket (scenarioLimitAsk 300000 5)) emptyGlobal).toOption.map fun r =>
      r.2.1.aBids.map fun p => (p.1, p.2.isBid, p.2.isATree, p.2.rateBps)) =
      some [(160, false, false, 5)]
    ∧ ((placeOrder scenarioEnv smallRateReverseBidArgs
        (scenarioMarket (scenarioLimitAsk 300000 5)) emptyGlobal).toOption.map fun r =>
      (r.2.1.baseAOrderSequenceNumber, r.2.1.baseBOrderSequenceNumber)) = some (1, 1) := by
  decide

/-! ### C3: which index the fill loan stores -/

/-- C3 (evidence): a taker bid (seat index 96) fully filling the resting ask
stored at order slot 160, whose maker sits at seat index 32, appends an
active loan with `lender_index = 160` — the maker's (already freed) order
slot index, not the maker's seat index 32. -/
theorem fill_loan_order_slot_index_evidence :
    ((placeOrder scenarioEnv limitBidArgs (scenarioMarket (scenarioLimitAsk 1000000 500))
        emptyGlobal).toOption.map fun r =>
      r.1.matchedLoans.map fun l => (l.lenderIndex, l.borrowerIndex, l.rateBps)) =
      some [(160, 96, 500)]
    ∧ (scenarioMarket (scenarioLimitAsk 1000000 500)).aAsks =
        [(160, scenarioLimitAsk 1000000 500)]
    ∧ (scenarioLimitAsk 1000000 500).traderIndex = 32
    ∧ (32 : Nat) ≠ 160 := by
  decide

/-! ### C5: eviction of an expired maker -/

/-- C5 (counterexample): an expired GLOBAL ask at the top of the book is
evicted (removed from the tree, slot 160 freed) by an incoming IOC bid, but
its `collateral_shares` (5 atoms, nonzero) are NOT credited back to its
maker's seat: every seat is left exactly as it was, because eviction of a
global ask takes the gas-refund path on the global account instead.  This
refutes the claim's unqualified "if it was an ask its collateral_shares are
credited back to its maker's seat". -/
theorem expired_global_ask_eviction_no_seat_credit :
    ((placeOrder scenarioEnv iocBidArgs (scenarioMarket scenarioExpiredGlobalAsk)
        emptyGlobal).toOption.map fun r => r.2.1.seats) =
      some (scenarioMarket scenarioExpiredGlobalAsk).seats
    ∧ ((placeOrder scenarioEnv iocBidArgs (scenarioMarket scenarioExpiredGlobalAsk)
        emptyGlobal).toOption.map fun r => (r.2.1.aAsks, r.2.1.freeList)) =
      some ([], [160])
    ∧ ((placeOrder scenarioEnv iocBidArgs (scenarioMarket scenarioExpiredGlobalAsk)
        emptyGlobal).toOption.map fun r => r.1.matchedLoans) = some []
    ∧ scenarioExpiredGlobalAsk.collateralShares ≠ 0
    ∧ scenarioExpiredGlobalAsk.is_expired scenarioEnv.nowSlot = true := by
  decide

/-- C5 (amended): in the matching loop, a NON-GLOBAL maker at the top of the
opposite book that is expired or has zero collateral shares is evicted
before the taker's rate limit is compared — with no hypothesis on its rate
or on the taker's order type: it is removed from the tree and its slot is
freed; if it was an ask its collateral shares are credited back to its
maker's seat, and if it was a bid an active-loan record (lender 0, rate 0)
is produced instead; then the walk continues with the next maker.  (A global
ask is instead evicted via the global gas-refund path without a seat
credit.) -/
theorem expired_maker_evicted_before_rate_check
    (env : PlaceOrderEnv) (args : PlaceOrderArgs) (bufferF : Int) (i : Nat)
    (maker : RestingOrder) (rest : List (Nat × RestingOrder)) (st : MatchState)
    (hng : maker.is_global = false)
    (hev : maker.is_expired env.nowSlot = true ∨ maker.collateralShares = 0)
    (hrem : st.remainingBaseAtoms ≠ 0) :
    matchLoop env args bufferF ((i, maker) :: rest) st =
      matchLoop env args bufferF rest
        { st with
            market := remove_order_from_tree_and_free
              (if maker.isBid then st.market
               else
                 st.market.setSeat maker.traderIndex
                   (if args.useATree then
                      { st.market.getSeat maker.traderIndex with
                          baseAWithdrawableAssetShare :=
                            (st.market.getSeat maker.traderIndex).baseAWithdrawableAssetShare
                              + maker.collateralShares }
                    else
                      { st.market.getSeat maker.traderIndex with
                          baseBWithdrawableAssetShare :=
                            (st.market.getSeat maker.traderIndex).baseBWithdrawableAssetShare
                              + maker.collateralShares }))
              args.useATree i maker.isBid
            newLoans :=
              if maker.isBid then
                st.newLoans ++ [ActiveLoan.new_empty args.useATree 0 i maker.is_global
                  maker.collateralShares maker.liabilityShares 0 env.nowUnixTimestamp
                  env.nowSlot]
              else st.newLoans } := by
  have hcond : (maker.is_expired env.nowSlot || decide (maker.collateralShares = 0)) = true := by
    rcases hev with h | h
    · simp [h]
    · simp [h]
  have hngP : maker.orderType ≠ OrderType.global := by
    simpa [RestingOrder.is_global] using hng
  cases hb : maker.isBid with
  | true =>
    simp [matchLoop, hrem, hcond, hb, hngP, remove_and_update_balances,
      RestingOrder.is_global, except_ok_bind]
  | false =>
    cases hu : args.useATree with
    | true =>
      simp [matchLoop, hrem, hcond, hb, hngP, hu, remove_and_update_balances,
        RestingOrder.is_global, update_balance, should_update_base_a, except_ok_bind]
    | false =>
      simp [matchLoop, hrem, hcond, hb, hngP, hu, remove_and_update_balances,
        RestingOrder.is_global, update_balance, should_update_base_a, except_ok_bind]

theorem expired_maker_evicted_before_rate_check_witness :
    matchLoop scenarioEnv iocBidArgs 0 [(160, scenarioExpiredBid)] scenarioMatchState =
      matchLoop scenarioEnv iocBidArgs 0 []
        { scenarioMatchState with
            market := remove_order_from_tree_and_free scenarioMatchState.market
              iocBidArgs.useATree 160 scenarioExpiredBid.isBid
            newLoans := scenarioMatchState.newLoans ++
              [ActiveLoan.new_empty iocBidArgs.useATree 0 160 scenarioExpiredBid.is_global
                scenarioExpiredBid.collateralShares scenarioExpiredBid.liabilityShares 0
                scenarioEnv.nowUnixTimestamp scenarioEnv.nowSlot] } :=
  expired_maker_evicted_before_rate_check scenarioEnv iocBidArgs 0 160 scenarioExpiredBid
    [] scenarioMatchState (by decide) (Or.inl (by decide)) (by decide)

/-! ### C6: the cancel path -/

/-- C6: canceling a resting non-global order (by sequence number — whose
scan delegates to the by-index path — or by index): a bid appends exactly
one active-loan record with lender index 0, the order's collateral and
liability shares, and rate 0, then removes the order and frees its slot,
with every seat balance untouched (the removal changes no seat); an ask
instead credits the maker's seat with the order's collateral shares. -/
theorem cancel_resting_order_effects
    (m : MarketState) (ledger : MarketLoansState) (useATree : Bool) (i : Nat)
    (ro : RestingOrder) (ts slot : Int)
    (hfind : findOrderByIndex m i = some ro)
    (hng : ro.is_global = false)
    (hcap : ledger.numActiveLoans + 1 ≤ MAX_ACTIVE_LOANS) :
    (cancel_order_by_index m ledger useATree i ts slot =
      if ro.isBid then
        Except.ok (remove_order_from_tree_and_free m useATree i ro.isBid,
          { ledger with
              loans := ledger.loans ++ [ActiveLoan.new_empty useATree 0 ro.traderIndex
                false ro.collateralShares ro.liabilityShares 0 ts slot]
              numActiveLoans := ledger.numActiveLoans + 1 })
      else
        Except.ok (remove_order_from_tree_and_free
          (m.setSeat ro.traderIndex
            (if useATree then
               { m.getSeat ro.traderIndex with
                   baseAWithdrawableAssetShare :=
                     (m.getSeat ro.traderIndex).baseAWithdrawableAssetShare
                       + ro.collateralShares }
             else
               { m.getSeat ro.traderIndex with
                   baseBWithdrawableAssetShare :=
                     (m.getSeat ro.traderIndex).baseBWithdrawableAssetShare
                       + ro.collateralShares }))
          useATree i ro.isBid, ledger))
    ∧ (remove_order_from_tree_and_free m useATree i ro.isBid).seats = m.seats
    ∧ (∀ tIdx seq j k,
        scanForSequenceNumber tIdx seq (m.getBook useATree false) NIL = Except.ok j →
        scanForSequenceNumber tIdx seq (m.getBook useATree true) j = Except.ok k →
        k ≠ NIL →
        cancel_order m ledger useATree tIdx seq ts slot =
          cancel_order_by_index m ledger useATree k ts slot) := by
  have hngP : ro.orderType ≠ OrderType.global := by
    simpa [RestingOrder.is_global] using hng
  refine ⟨?_, ?_, ?_⟩
  · cases hb : ro.isBid with
    | true =>
      simp [cancel_order_by_index, hfind, hb, hngP, RestingOrder.is_global,
        MarketLoansState.add_loans, hcap, except_ok_bind]
    | false =>
      cases hu : useATree with
      | true =>
        simp [cancel_order_by_index, hfind, hb, hngP, hu, RestingOrder.is_global,
          update_balance, should_update_base_a, except_ok_bind]
      | false =>
        simp [cancel_order_by_index, hfind, hb, hngP, hu, RestingOrder.is_global,
          update_balance, should_update_base_a, except_ok_bind]
  · cases hu : useATree <;> cases hb : ro.isBid <;>
      simp [remove_order_from_tree_and_free, MarketState.setBook, MarketState.getBook,
        MarketState.releaseAddress]
  · intro tIdx seq j k h1 h2 hk
    simp [cancel_order, h1, h2, hk, except_ok_bind]

theorem cancel_resting_order_effects_witness :
    (cancel_order_by_index scenarioBidMarket emptyLedger true 160 1000 10 =
      if scenarioRestingBid.isBid then
        Except.ok (remove_order_from_tree_and_free scenarioBidMarket true 160
            scenarioRestingBid.isBid,
          { emptyLedger with
              loans := emptyLedger.loans ++ [ActiveLoan.new_empty true 0
                scenarioRestingBid.traderIndex false scenarioRestingBid.collateralShares
                scenarioRestingBid.liabilityShares 0 1000 10]
              numActiveLoans := emptyLedger.numActiveLoans + 1 })
      else
        Except.ok (remove_order_from_tree_and_free
          (scenarioBidMarket.setSeat scenarioRestingBid.traderIndex
            (if (true : Bool) then
               { scenarioBidMarket.getSeat scenarioRestingBid.traderIndex with
                   baseAWithdrawableAssetShare :=
                     (scenarioBidMarket.getSeat
                       scenarioRestingBid.traderIndex).baseAWithdrawableAssetShare
                       + scenarioRestingBid.collateralShares }
             else
               { scenarioBidMarket.getSeat scenarioRestingBid.traderIndex with
                   baseBWithdrawableAssetShare :=
                     (scenarioBidMarket.getSeat
                       scenarioRestingBid.traderIndex).baseBWithdrawableAssetShare
                       + scenarioRestingBid.collateralShares }))
          true 160 scenarioRestingBid.isBid, emptyLedger))
    ∧ (remove_order_from_tree_and_free scenarioBidMarket true 160
        scenarioRestingBid.isBid).seats = scenarioBidMarket.seats
    ∧ (∀ tIdx seq j k,
        scanForSequenceNumber tIdx seq (scenarioBidMarket.getBook true false) NIL =
          Except.ok j →
        scanForSequenceNumber tIdx seq (scenarioBidMarket.getBook true true) j =
          Except.ok k →
        k ≠ NIL →
        cancel_order scenarioBidMarket emptyLedger true tIdx seq 1000 10 =
          cancel_order_by_index scenarioBidMarket emptyLedger true k 1000 10) :=
  cancel_resting_order_effects scenarioBidMarket emptyLedger true 160 scenarioRestingBid
    1000 10 (by decide) (by decide) (by decide)

/-! ### C7: post-only and global orders that cross -/

/-- C7: a `place_order` call with order type PostOnly or Global (a Global
taker must be an ask), a nonzero size, valid expiry, a claimed seat, and a
non-expired nonzero-collateral maker at the top of the opposite book whose
rate crosses the taker's limit (maker rate at most the limit for a bid, at
least the limit for an ask), fails with `PostOnlyCrosses` instead of
skipping the maker and resting a crossed order. -/
theorem post_only_cross_fails
    (env : PlaceOrderEnv) (args : PlaceOrderArgs) (m : MarketState) (g : GlobalState)
    (bufferF : Int) (i : Nat) (maker : RestingOrder) (rest : List (Nat × RestingOrder))
    (hseat : args.traderIndex ≠ NIL)
    (hexp0 : args.lastValidSlot = 0 ∨ args.lastValidSlot > env.nowSlot)
    (hglobal : ¬(args.isBid = true ∧ args.orderType = OrderType.global))
    (hbuf : ltvBufferFactor m.ltvBufferBps = some bufferF)
    (hnum : args.numBaseAtoms ≠ 0)
    (hbook : m.getBook args.useATree (!args.isBid) = (i, maker) :: rest)
    (hexp : maker.is_expired env.nowSlot = false)
    (hcol : maker.collateralShares ≠ 0)
    (hcross : if args.isBid then maker.rateBps ≤ args.rateBps
              else args.rateBps ≤ maker.rateBps)
    (htype : args.orderType = OrderType.postOnly ∨ args.orderType = OrderType.global) :
    placeOrder env args m g = Except.error NixError.postOnlyCrosses := by
  have hnr : args.orderType ≠ OrderType.reverse := by
    rcases htype with h | h <;> simp [h]
  have h1 : assert_already_has_seat args.traderIndex = Except.ok () := by
    simp [assert_already_has_seat, hseat]
  have h2 : assert_not_already_expired args.lastValidSlot env.nowSlot = Except.ok () := by
    simp [assert_not_already_expired, hexp0]
  have h3 : assert_valid_order_type args.orderType args.isBid = Except.ok () := by
    cases hbid : args.isBid with
    | true =>
      have hne : args.orderType ≠ OrderType.global := fun hc => hglobal ⟨hbid, hc⟩
      simp [assert_valid_order_type, hne, hnr]
    | false => simp [assert_valid_order_type, hnr]
  have hnocross : ¬((args.isBid = true ∧ args.rateBps < maker.rateBps)
      ∨ (¬args.isBid = true ∧ maker.rateBps < args.rateBps)) := by
    cases hbid : args.isBid <;> simp [hbid] <;> simp [hbid] at hcross <;> omega
  have htake : assert_can_take args.orderType = Except.error NixError.postOnlyCrosses := by
    rcases htype with h | h <;>
      simp [assert_can_take, order_type_can_take, h, throw, throwThe, MonadExceptOf.throw]
  have hloop : matchLoop env args bufferF ((i, maker) :: rest)
      { market := m, global := g, remainingBaseAtoms := args.numBaseAtoms,
        totalBaseAtomsTraded := 0, totalQuoteAtomsTraded := 0,
        globalBaseAtomsTraded := 0, globalQuoteAtomsTraded := 0, newLoans := [] } =
      Except.error NixError.postOnlyCrosses := by
    simp only [matchLoop]
    rw [if_neg hnum]
    rw [if_neg (by simp [hexp, hcol])]
    rw [if_neg (by simpa using hnocross)]
    simp [htake, except_error_bind]
  simp only [placeOrder, h1, h2, h3, hbuf, orOverflow, Option.elim, except_ok_bind,
    except_pure_bind]
  rw [hbook, hloop, except_error_bind]

/-! ### C8: the order sequence number

A chain of preservation lemmas: no step of the matching loop (or of the
resting path) touches either tree pair's order sequence number; only the two
explicit bumps in `place_order` do. -/

theorem except_error_ne_ok {ε α : Type} {e : ε} {b : α} :
    (Except.error e : Except ε α) = Except.ok b ↔ False := by
  constructor
  · intro h
    cases h
  · intro h
    cases h

theorem orOverflow_bind_ok {α β : Type} {o : Option α} {f : α → Except NixError β}
    {b : β} :
    ((orOverflow o) >>= f) = Except.ok b ↔ ∃ a, o = some a ∧ f a = Except.ok b := by
  cases o with
  | none =>
    simp [orOverflow, except_throw_bind, throw, throwThe, MonadExceptOf.throw,
      except_error_bind, except_error_ne_ok]
  | some a =>
    simp [orOverflow, except_pure_bind]

theorem setBook_seq (m : MarketState) (u b : Bool) (l : List (Nat × RestingOrder)) :
    (m.setBook u b l).baseAOrderSequenceNumber = m.baseAOrderSequenceNumber
    ∧ (m.setBook u b l).baseBOrderSequenceNumber = m.baseBOrderSequenceNumber := by
  cases u <;> cases b <;> simp [MarketState.setBook]

theorem setSeat_seq (m : MarketState) (t : Nat) (s : ClaimedSeat) :
    (m.setSeat t s).baseAOrderSequenceNumber = m.baseAOrderSequenceNumber
    ∧ (m.setSeat t s).baseBOrderSequenceNumber = m.baseBOrderSequenceNumber := by
  simp [MarketState.setSeat]

theorem releaseAddress_seq (m : MarketState) (i : Nat) :
    (m.releaseAddress i).baseAOrderSequenceNumber = m.baseAOrderSequenceNumber
    ∧ (m.releaseAddress i).baseBOrderSequenceNumber = m.baseBOrderSequenceNumber := by
  simp [MarketState.releaseAddress]

theorem allocFreeAddress_seq (m : MarketState) :
    (m.allocFreeAddress).2.baseAOrderSequenceNumber = m.baseAOrderSequenceNumber
    ∧ (m.allocFreeAddress).2.baseBOrderSequenceNumber = m.baseBOrderSequenceNumber := by
  cases hl : m.freeList <;> simp [MarketState.allocFreeAddress, hl]

theorem remove_free_seq (m : MarketState) (u : Bool) (i : Nat) (b : Bool) :
    (remove_order_from_tree_and_free m u i b).baseAOrderSequenceNumber =
      m.baseAOrderSequenceNumber
    ∧ (remove_order_from_tree_and_free m u i b).baseBOrderSequenceNumber =
      m.baseBOrderSequenceNumber := by
  cases u <;> cases b <;>
    simp [remove_order_from_tree_and_free, MarketState.setBook, MarketState.getBook,
      MarketState.releaseAddress]

theorem insert_tree_seq (u b : Bool) (m : MarketState) (i : Nat) (ro : RestingOrder) :
    (insert_order_into_tree u b m i ro).baseAOrderSequenceNumber =
      m.baseAOrderSequenceNumber
    ∧ (insert_order_into_tree u b m i ro).baseBOrderSequenceNumber =
      m.baseBOrderSequenceNumber := by
  cases u <;> cases b <;>
    simp [insert_order_into_tree, MarketState.setBook, MarketState.getBook]

theorem record_volume_seq (m : MarketState) (t : Nat) (a : Int) (u : Bool) :
    (record_volume_by_trader_index m t a u).baseAOrderSequenceNumber =
      m.baseAOrderSequenceNumber
    ∧ (record_volume_by_trader_index m t a u).baseBOrderSequenceNumber =
      m.baseBOrderSequenceNumber := by
  cases u <;> simp [record_volume_by_trader_index, MarketState.setSeat]

theorem update_balance_seq {m m' : MarketState} {t : Nat} {a inc : Bool} {s : Int}
    (h : update_balance m t a inc s = Except.ok m') :
    m'.baseAOrderSequenceNumber = m.baseAOrderSequenceNumber
    ∧ m'.baseBOrderSequenceNumber = m.baseBOrderSequenceNumber := by
  simp only [update_balance] at h
  repeat' split at h
  all_goals
    first
      | (cases h; simp [MarketState.setSeat])
      | (simp [throw, throwThe, MonadExceptOf.throw] at h)

theorem remove_and_update_balances_seq {m m' : MarketState} {u : Bool} {i : Nat}
    {ro : RestingOrder} (h : remove_and_update_balances m u i ro = Except.ok m') :
    m'.baseAOrderSequenceNumber = m.baseAOrderSequenceNumber
    ∧ m'.baseBOrderSequenceNumber = m.baseBOrderSequenceNumber := by
  simp only [remove_and_update_balances] at h
  split at h
  · split at h
    · simp [throw, throwThe, MonadExceptOf.throw, except_error_bind,
        except_error_ne_ok] at h
    · simp only [remove_from_global, except_ok_bind, except_pure_bind,
        except_pure_eq_ok] at h
      rw [← h]
      exact remove_free_seq m u i ro.isBid
  · split at h
    · rw [except_bind_eq_ok] at h
      obtain ⟨y, hy, h⟩ := h
      rw [except_pure_eq_ok] at h
      rw [← h]
      have h1 := remove_free_seq y u i ro.isBid
      have h2 := update_balance_seq hy
      exact ⟨h1.1.trans h2.1, h1.2.trans h2.2⟩
    · simp only [except_pure_bind, except_pure_eq_ok] at h
      rw [← h]
      exact remove_free_seq m u i ro.isBid

theorem remove_after_records_seq (m : MarketState) (t1 t2 mi : Nat) (bs : Int)
    (u nb : Bool) :
    (remove_order_from_tree_and_free
      (record_volume_by_trader_index (record_volume_by_trader_index m t1 bs u) t2 bs u)
      u mi nb).baseAOrderSequenceNumber = m.baseAOrderSequenceNumber
    ∧ (remove_order_from_tree_and_free
      (record_volume_by_trader_index (record_volume_by_trader_index m t1 bs u) t2 bs u)
      u mi nb).baseBOrderSequenceNumber = m.baseBOrderSequenceNumber := by
  have h1 := remove_free_seq
    (record_volume_by_trader_index (record_volume_by_trader_index m t1 bs u) t2 bs u)
    u mi nb
  have h2 := record_volume_seq (record_volume_by_trader_index m t1 bs u) t2 bs u
  have h3 := record_volume_seq m t1 bs u
  exact ⟨h1.1.trans (h2.1.trans h3.1), h1.2.trans (h2.2.trans h3.2)⟩

theorem setBook_after_records_seq (m : MarketState) (t1 t2 : Nat) (bs : Int)
    (u nb : Bool) (l : List (Nat × RestingOrder)) :
    ((record_volume_by_trader_index (record_volume_by_trader_index m t1 bs u) t2 bs
      u).setBook u nb l).baseAOrderSequenceNumber = m.baseAOrderSequenceNumber
    ∧ ((record_volume_by_trader_index (record_volume_by_trader_index m t1 bs u) t2 bs
      u).setBook u nb l).baseBOrderSequenceNumber = m.baseBOrderSequenceNumber := by
  have h1 := setBook_seq
    (record_volume_by_trader_index (record_volume_by_trader_index m t1 bs u) t2 bs u)
    u nb l
  have h2 := record_volume_seq (record_volume_by_trader_index m t1 bs u) t2 bs u
  have h3 := record_volume_seq m t1 bs u
  exact ⟨h1.1.trans (h2.1.trans h3.1), h1.2.trans (h2.2.trans h3.2)⟩

theorem matchFill_seq {env : PlaceOrderEnv} {args : PlaceOrderArgs} {makerIndex : Nat}
    {maker : RestingOrder} {isMakerGlobal : Bool} {baseT quoteT rate : Nat} {dfm : Bool}
    {st st' : MatchState} {fully : Bool}
    (h : matchFill env args makerIndex maker isMakerGlobal baseT quoteT rate dfm st =
      Except.ok (st', fully)) :
    st'.market.baseAOrderSequenceNumber = st.market.baseAOrderSequenceNumber
    ∧ st'.market.baseBOrderSequenceNumber = st.market.baseBOrderSequenceNumber := by
  simp only [matchFill, orOverflow_bind_ok, except_bind_eq_ok] at h
  obtain ⟨tb, htb, tq, htq, bs, hbs, qs, hqs, m1, hm1, h⟩ := h
  have hm1s := update_balance_seq hm1
  split at h
  · -- taker also receives the bought side
    simp only [except_bind_eq_ok] at h
    obtain ⟨u1, hu1, m2, hm2, h⟩ := h
    have hm2s := update_balance_seq hm2
    split at h
    · split at h <;>
      · simp only [remove_from_global, except_ok_bind, orOverflow_bind_ok] at h
        obtain ⟨rem, hrem, h⟩ := h
        rw [except_pure_eq_ok, Prod.mk.injEq] at h
        obtain ⟨hX, -⟩ := h
        rw [← hX]
        constructor
        · exact (remove_after_records_seq m2 maker.traderIndex args.traderIndex
            makerIndex bs args.useATree (!args.isBid)).1.trans
            (hm2s.1.trans hm1s.1)
        · exact (remove_after_records_seq m2 maker.traderIndex args.traderIndex
            makerIndex bs args.useATree (!args.isBid)).2.trans
            (hm2s.2.trans hm1s.2)
    · split at h <;>
      · simp only [except_bind_eq_ok] at h
        obtain ⟨mr, hmr, h⟩ := h
        rw [except_pure_eq_ok, Prod.mk.injEq] at h
        obtain ⟨hX, -⟩ := h
        rw [← hX]
        constructor
        · exact (setBook_after_records_seq m2 maker.traderIndex args.traderIndex bs
            args.useATree (!args.isBid) _).1.trans (hm2s.1.trans hm1s.1)
        · exact (setBook_after_records_seq m2 maker.traderIndex args.traderIndex bs
            args.useATree (!args.isBid) _).2.trans (hm2s.2.trans hm1s.2)
  · -- no receive-side credit
    simp only [except_pure_bind] at h
    split at h
    · split at h <;>
      · simp only [remove_from_global, except_ok_bind, orOverflow_bind_ok] at h
        obtain ⟨rem, hrem, h⟩ := h
        rw [except_pure_eq_ok, Prod.mk.injEq] at h
        obtain ⟨hX, -⟩ := h
        rw [← hX]
        constructor
        · exact (remove_after_records_seq m1 maker.traderIndex args.traderIndex
            makerIndex bs args.useATree (!args.isBid)).1.trans hm1s.1
        · exact (remove_after_records_seq m1 maker.traderIndex args.traderIndex
            makerIndex bs args.useATree (!args.isBid)).2.trans hm1s.2
    · split at h <;>
      · simp only [except_bind_eq_ok] at h
        obtain ⟨mr, hmr, h⟩ := h
        rw [except_pure_eq_ok, Prod.mk.injEq] at h
        obtain ⟨hX, -⟩ := h
        rw [← hX]
        constructor
        · exact (setBook_after_records_seq m1 maker.traderIndex args.traderIndex bs
            args.useATree (!args.isBid) _).1.trans hm1s.1
        · exact (setBook_after_records_seq m1 maker.traderIndex args.traderIndex bs
            args.useATree (!args.isBid) _).2.trans hm1s.2

theorem matchLoop_seq {env : PlaceOrderEnv} {args : PlaceOrderArgs} {bufferF : Int} :
    ∀ (book : List (Nat × RestingOrder)) (st st' : MatchState),
    matchLoop env args bufferF book st = Except.ok st' →
    st'.market.baseAOrderSequenceNumber = st.market.baseAOrderSequenceNumber
    ∧ st'.market.baseBOrderSequenceNumber = st.market.baseBOrderSequenceNumber := by
  intro book
  induction book with
  | nil =>
    intro st st' h
    simp only [matchLoop] at h
    cases h
    exact ⟨rfl, rfl⟩
  | cons head rest ih =>
    obtain ⟨makerIndex, maker⟩ := head
    intro st st' h
    simp only [matchLoop] at h
    split at h
    · cases h
      exact ⟨rfl, rfl⟩
    · split at h
      · -- eviction of an expired / empty maker
        cases hmb : maker.isBid <;> simp only [hmb] at h <;>
          simp only [Bool.true_eq_false, Bool.false_eq_true, if_true, if_false,
            ite_true, ite_false, except_bind_eq_ok] at h
        · obtain ⟨m2, hm2, hrec⟩ := h
          have h1 := remove_and_update_balances_seq hm2
          have h2 := ih _ _ hrec
          exact ⟨h2.1.trans h1.1, h2.2.trans h1.2⟩
        · obtain ⟨m2, hm2, hrec⟩ := h
          have h1 := remove_and_update_balances_seq hm2
          have h2 := ih _ _ hrec
          exact ⟨h2.1.trans h1.1, h2.2.trans h1.2⟩
      · split at h
        · -- rate-limit break
          cases h
          exact ⟨rfl, rfl⟩
        · -- matching
          simp only [except_bind_eq_ok, orOverflow_bind_ok] at h
          obtain ⟨u1, hu1, mba, hmba, qat, hqat, h⟩ := h
          split at h
          · -- global maker
            rw [except_bind_eq_ok] at h
            obtain ⟨p, htm, h⟩ := h
            obtain ⟨hasEnough, g2⟩ := p
            simp only at h
            split at h
            · rw [except_bind_eq_ok] at h
              obtain ⟨m2, hm2, hrec⟩ := h
              have h1 := remove_and_update_balances_seq hm2
              have h2 := ih _ _ hrec
              exact ⟨h2.1.trans h1.1, h2.2.trans h1.2⟩
            · split at h <;>
              · simp only [orOverflow_bind_ok, except_pure_bind,
                  except_bind_eq_ok] at h
                obtain ⟨gb, hgb, p2, hmf, h⟩ := h
                obtain ⟨st2, fully⟩ := p2
                have hmfs := matchFill_seq hmf
                simp only at h
                split at h
                · have h2 := ih _ _ h
                  exact ⟨h2.1.trans hmfs.1, h2.2.trans hmfs.2⟩
                · cases h
                  exact hmfs
          · -- non-global maker
            simp only [except_bind_eq_ok] at h
            obtain ⟨p2, hmf, h⟩ := h
            obtain ⟨st2, fully⟩ := p2
            have hmfs := matchFill_seq hmf
            simp only at h
            split at h
            · have h2 := ih _ _ h
              exact ⟨h2.1.trans hmfs.1, h2.2.trans hmfs.2⟩
            · cases h
              exact hmfs

theorem restRemaining_seq {env : PlaceOrderEnv} {args : PlaceOrderArgs}
    {m m' : MarketState} {g g' : GlobalState} {cs ls : Int} {osn tb tq : Nat}
    {loans : List ActiveLoan} {r : AddOrderToMarketResult}
    (h : restRemaining env args m g cs ls osn tb tq loans = Except.ok (r, m', g')) :
    m'.baseAOrderSequenceNumber = m.baseAOrderSequenceNumber
    ∧ m'.baseBOrderSequenceNumber = m.baseBOrderSequenceNumber := by
  simp only [restRemaining] at h
  rw [except_bind_eq_ok] at h
  obtain ⟨u1, hu1, h⟩ := h
  rcases hp : m.allocFreeAddress with ⟨fa, m1⟩
  rw [hp] at h
  have halloc := allocFreeAddress_seq m
  rw [hp] at halloc
  try simp only at halloc
  try simp only at h
  cases hro : RestingOrder.new args.rateBps osn cs ls args.useATree args.traderIndex
      args.lastValidSlot args.orderType args.isBid 0 with
  | none =>
    rw [hro] at h
    simp [Option.elim, throw, throwThe, MonadExceptOf.throw, except_error_bind,
      except_error_ne_ok] at h
  | some ro =>
    rw [hro] at h
    simp only [Option.elim, except_pure_bind] at h
    split at h
    · split at h
      · simp [throw, throwThe, MonadExceptOf.throw, except_error_bind,
          except_error_ne_ok] at h
      · split at h
        · simp [throw, throwThe, MonadExceptOf.throw, except_error_bind,
            except_error_ne_ok] at h
        · try simp only [except_pure_bind] at h
          try simp only at h
          rw [except_pure_eq_ok] at h
          simp only [Prod.mk.injEq] at h
          obtain ⟨-, h, -⟩ := h
          rw [← h]
          have h1 := insert_tree_seq args.useATree args.isBid m1 fa ro
          exact ⟨h1.1.trans halloc.1, h1.2.trans halloc.2⟩
    · rw [except_bind_eq_ok] at h
      obtain ⟨m2, hm2, h⟩ := h
      try simp only [except_pure_bind] at h
      try simp only at h
      rw [except_pure_eq_ok] at h
      simp only [Prod.mk.injEq] at h
      obtain ⟨-, h, -⟩ := h
      rw [← h]
      have h1 := insert_tree_seq args.useATree args.isBid m2 fa ro
      have h2 := update_balance_seq hm2
      exact ⟨h1.1.trans (h2.1.trans halloc.1), h1.2.trans (h2.2.trans halloc.2)⟩

theorem placeOrderRestTail_seq {env : PlaceOrderEnv} {args : PlaceOrderArgs}
    {m m' : MarketState} {g g' : GlobalState} {st : MatchState} {osn : Nat}
    {bufferF : Int} {r : AddOrderToMarketResult}
    (h : placeOrderRestTail env args m g st osn bufferF = Except.ok (r, m', g')) :
    m'.baseAOrderSequenceNumber = m.baseAOrderSequenceNumber
    ∧ m'.baseBOrderSequenceNumber = m.baseBOrderSequenceNumber := by
  simp only [placeOrderRestTail] at h
  split at h
  · rename_i hb
    simp only [hb, if_true, orOverflow_bind_ok, except_bind_eq_ok,
      except_pure_bind] at h
    obtain ⟨qa, hqa, c, hc, l, hl, h⟩ := h
    exact restRemaining_seq h
  · rename_i hb
    try simp only [except_pure_bind] at h
    split at h
    · try simp only [except_pure_bind] at h
      exact restRemaining_seq h
    · simp only [orOverflow_bind_ok, except_pure_bind] at h
      obtain ⟨c, hc, h⟩ := h
      exact restRemaining_seq h

theorem placeOrder_seq_bump_a {env : PlaceOrderEnv} {args : PlaceOrderArgs}
    {m m' : MarketState} {g g' : GlobalState} {r : AddOrderToMarketResult}
    (h : placeOrder env args m g = Except.ok (r, m', g'))
    (hu : args.useATree = true) :
    m'.baseAOrderSequenceNumber = (m.baseAOrderSequenceNumber + 1) % 2 ^ 64 := by
  simp only [placeOrder, except_bind_eq_ok, orOverflow_bind_ok] at h
  obtain ⟨u1, hu1, u2, hu2, u3, hu3, bF, hbF, st, hloop, h⟩ := h
  have hst := matchLoop_seq _ _ _ hloop
  simp only [hu, if_true] at h
  split at h
  · rw [except_pure_eq_ok] at h
    simp only [Prod.mk.injEq] at h
    obtain ⟨-, h, -⟩ := h
    rw [← h]
    exact congrArg (fun x => (x + 1) % 2 ^ 64) hst.1
  · split at h
    · rename_i hrev
      simp only [orOverflow_bind_ok, except_bind_eq_ok] at h
      obtain ⟨rr, hrr, rba, hrba, shares, hshares, h⟩ := h
      split at h
      · simp [RestingOrder.new, Option.elim, except_pure_bind, except_pure_eq_ok,
          Prod.mk.injEq] at h
        obtain ⟨-, h, -⟩ := h
        rw [← h]
        cases hfl : st.market.freeList <;>
          simp [hfl, MarketState.allocFreeAddress, insert_order_into_tree,
            MarketState.setBook, hrev.1, hst.1]
      · have ht := placeOrderRestTail_seq h
        rw [ht.1]
        exact congrArg (fun x => (x + 1) % 2 ^ 64) hst.1
    · have ht := placeOrderRestTail_seq h
      rw [ht.1]
      exact congrArg (fun x => (x + 1) % 2 ^ 64) hst.1

theorem placeOrder_seq_bump_b {env : PlaceOrderEnv} {args : PlaceOrderArgs}
    {m m' : MarketState} {g g' : GlobalState} {r : AddOrderToMarketResult}
    (h : placeOrder env args m g = Except.ok (r, m', g'))
    (hu : args.useATree = false) :
    m'.baseBOrderSequenceNumber = (m.baseBOrderSequenceNumber + 1) % 2 ^ 64 := by
  simp only [placeOrder, except_bind_eq_ok, orOverflow_bind_ok] at h
  obtain ⟨u1, hu1, u2, hu2, u3, hu3, bF, hbF, st, hloop, h⟩ := h
  have hst := matchLoop_seq _ _ _ hloop
  simp only [hu, Bool.false_eq_true, if_false] at h
  split at h
  · rw [except_pure_eq_ok] at h
    simp only [Prod.mk.injEq] at h
    obtain ⟨-, h, -⟩ := h
    rw [← h]
    exact congrArg (fun x => (x + 1) % 2 ^ 64) hst.2
  · split at h
    · rename_i hrev
      simp only [orOverflow_bind_ok, except_bind_eq_ok] at h
      obtain ⟨rr, hrr, rba, hrba, shares, hshares, h⟩ := h
      split at h
      · simp [RestingOrder.new, Option.elim, except_pure_bind, except_pure_eq_ok,
          Prod.mk.injEq] at h
        obtain ⟨-, h, -⟩ := h
        rw [← h]
        cases hfl : st.market.freeList <;>
          simp [hfl, MarketState.allocFreeAddress, insert_order_into_tree,
            MarketState.setBook, hrev.1, hst.2]
      · have ht := placeOrderRestTail_seq h
        rw [ht.2]
        exact congrArg (fun x => (x + 1) % 2 ^ 64) hst.2
    · have ht := placeOrderRestTail_seq h
      rw [ht.2]
      exact congrArg (fun x => (x + 1) % 2 ^ 64) hst.2

/-- C8: a successful `place_order` call increments the order sequence number
of the chosen tree pair exactly once — it becomes the old value plus one
(wrapping as a u64) no matter how many makers were walked and whether the
order rests — so, short of u64 wrap-around, sequence numbers within each
tree pair strictly increase across fills and reposts. -/
theorem order_sequence_number_bumped_once {env : PlaceOrderEnv}
    {args : PlaceOrderArgs} {m m' : MarketState} {g g' : GlobalState}
    {r : AddOrderToMarketResult}
    (h : placeOrder env args m g = Except.ok (r, m', g')) :
    (args.useATree = true →
      m'.baseAOrderSequenceNumber = (m.baseAOrderSequenceNumber + 1) % 2 ^ 64
      ∧ (m.baseAOrderSequenceNumber + 1 < 2 ^ 64 →
          m.baseAOrderSequenceNumber < m'.baseAOrderSequenceNumber))
    ∧ (args.useATree = false →
      m'.baseBOrderSequenceNumber = (m.baseBOrderSequenceNumber + 1) % 2 ^ 64
      ∧ (m.baseBOrderSequenceNumber + 1 < 2 ^ 64 →
          m.baseBOrderSequenceNumber < m'.baseBOrderSequenceNumber)) := by
  constructor
  · intro hu
    have hEq := placeOrder_seq_bump_a h hu
    refine ⟨hEq, fun hb => ?_⟩
    rw [hEq]
    omega
  · intro hu
    have hEq := placeOrder_seq_bump_b h hu
    refine ⟨hEq, fun hb => ?_⟩
    rw [hEq]
    omega

theorem order_sequence_number_bumped_once_witness :
    ({ scenarioBidMarket with baseAOrderSequenceNumber := 10 } :
        MarketState).baseAOrderSequenceNumber =
      (scenarioBidMarket.baseAOrderSequenceNumber + 1) % 2 ^ 64
    ∧ scenarioBidMarket.baseAOrderSequenceNumber <
      ({ scenarioBidMarket with baseAOrderSequenceNumber := 10 } :
        MarketState).baseAOrderSequenceNumber := by
  have h : placeOrder scenarioEnv iocBidArgs scenarioBidMarket emptyGlobal =
      Except.ok ({ orderSequenceNumber := 10
                   orderIndex := NIL
                   baseAtomsTraded := 0
                   quoteAtomsTraded := 0
                   matchedLoans := [] },
        { scenarioBidMarket with baseAOrderSequenceNumber := 10 }, emptyGlobal) := by
    rfl
  have hmain := order_sequence_number_bumped_once h
  exact ⟨(hmain.1 rfl).1, (hmain.1 rfl).2 (by decide)⟩

theorem post_only_cross_fails_witness :
    placeOrder scenarioEnv postOnlyBidArgs (scenarioMarket (scenarioLimitAsk 1000000 500))
      emptyGlobal = Except.error NixError.postOnlyCrosses :=
  post_only_cross_fails scenarioEnv postOnlyBidArgs
    (scenarioMarket (scenarioLimitAsk 1000000 500)) emptyGlobal 267401227875123 160
    (scenarioLimitAsk 1000000 500) [] (by decide) (Or.inl rfl) (by decide) (by decide)
    (by decide) (by decide) (by decide) (by decide) (by decide) (Or.inl rfl)

set_option maxRecDepth 2000

/-! ### C9: share/token conversion round trips -/

theorem int_ediv_ediv_of_pos {a b c : Int} (hb : 0 < b) (hc : 0 < c) :
    a / b / c = a / (b * c) := by
  apply le_antisymm
  · rw [Int.le_ediv_iff_mul_le (mul_pos hb hc)]
    calc a / b / c * (b * c) = a / b / c * c * b := by ring
      _ ≤ a / b * b :=
        mul_le_mul_of_nonneg_right (Int.ediv_mul_le (a / b) hc.ne') hb.le
      _ ≤ a := Int.ediv_mul_le a hb.ne'
  · rw [Int.le_ediv_iff_mul_le hc, Int.le_ediv_iff_mul_le hb]
    calc a / (b * c) * c * b = a / (b * c) * (b * c) := by ring
      _ ≤ a := Int.ediv_mul_le a (mul_pos hb hc).ne'

theorem convert_tokens_to_asset_shares_eq {bank : Bank} {t : Nat} {s : Int}
    (hv : 0 < bank.assetShareValue)
    (h : convert_tokens_to_asset_shares t bank = some s) :
    s = (t : Int) * 2 ^ 96 / bank.assetShareValue := by
  simp only [convert_tokens_to_asset_shares, fpCheckedDiv, fpOfNat, fpScale] at h
  rw [if_neg hv.ne'] at h
  split at h
  · rw [Option.some.injEq] at h
    subst h
    have hnum : (t : Int) * 2 ^ 48 * 2 ^ 48 = (t : Int) * 2 ^ 96 := by ring
    rw [hnum]
    exact Int.tdiv_eq_ediv (by positivity) hv.le
  · exact absurd h (by simp)

theorem convert_asset_shares_to_tokens_eq {bank : Bank} {s : Int} {tok : Nat}
    (h : convert_asset_shares_to_tokens s bank = some tok) :
    (tok : Int) = s * bank.assetShareValue / 2 ^ 96 := by
  cases hp : fpCheckedMul s bank.assetShareValue with
  | none => simp [convert_asset_shares_to_tokens, hp] at h
  | some p =>
    cases hf : fpCheckedFloor p with
    | none => simp [convert_asset_shares_to_tokens, hp, hf] at h
    | some f =>
      have hend : fpToU64 f = some tok := by
        simpa [convert_asset_shares_to_tokens, hp, hf] using h
      have hpval : p = (s * bank.assetShareValue).fdiv (2 ^ 48) := by
        simp only [fpCheckedMul, fpScale] at hp
        split at hp
        · exact ((Option.some.injEq _ _).mp hp).symm
        · exact absurd hp (by simp)
      have hfval : f = p.fdiv (2 ^ 48) * 2 ^ 48 := by
        simp only [fpCheckedFloor, fpScale] at hf
        split at hf
        · exact ((Option.some.injEq _ _).mp hf).symm
        · exact absurd hf (by simp)
      simp only [fpToU64, fpScale] at hend
      split at hend
      · rename_i hrange
        rw [Option.some.injEq] at hend
        subst hend
        rw [Int.toNat_of_nonneg hrange.1, hfval,
          Int.mul_tdiv_cancel _ (by positivity), hpval,
          Int.fdiv_eq_ediv _ (by positivity), Int.fdiv_eq_ediv _ (by positivity),
          int_ediv_ediv_of_pos (by positivity) (by positivity)]
        norm_num
      · exact absurd hend (by simp)

/-- C9 (counterexample): the round-trip claim fails in both directions.  With
the unit bank, converting `2^47` asset shares (half a share) to tokens floors
to `0`, and converting back yields `0 < 2^47`, refuting "shares → tokens →
shares is ≥ the original".  With a bank whose asset share value is `3 * 2^96`
bits (i.e. `3 * 2^48` as a real value, positive), converting `2` tokens to
shares truncates to `0` shares, and converting back yields `0` tokens — a loss
of 2 atoms, refuting "tokens → shares → tokens lands in `[t − 1, t]`" for banks
with merely positive share value. -/
theorem share_token_round_trip_counterexample :
    (0 < sixDecimalUnitBank.assetShareValue
      ∧ convert_asset_shares_to_tokens (2 ^ 47) sixDecimalUnitBank = some 0
      ∧ convert_tokens_to_asset_shares 0 sixDecimalUnitBank = some 0
      ∧ ¬ ((0 : Int) ≥ 2 ^ 47))
    ∧ (0 < largeShareValueBank.assetShareValue
      ∧ convert_tokens_to_asset_shares 2 largeShareValueBank = some 0
      ∧ convert_asset_shares_to_tokens 0 largeShareValueBank = some 0
      ∧ ¬ ((2 : Nat) - 1 ≤ 0)) := by
  decide

/-- C9 (amended): (a) for a bank whose asset share value is positive and at
most `2^96` bits (a real share value of at most `2^48` tokens per share,
which covers every realistic bank), a successful round trip
tokens → shares → tokens lands in `[t − 1, t]`; (b) for every nonnegative
share amount, a successful round trip shares → tokens → shares is at most
(not at least) the original, because both conversions round down. -/
theorem share_token_round_trip_amended :
    (∀ (bank : Bank) (t t' : Nat) (s : Int),
      0 < bank.assetShareValue → bank.assetShareValue ≤ 2 ^ 96 →
      convert_tokens_to_asset_shares t bank = some s →
      convert_asset_shares_to_tokens s bank = some t' →
      t - 1 ≤ t' ∧ t' ≤ t)
    ∧ (∀ (bank : Bank) (s s' : Int) (tok : Nat),
      0 ≤ s → 0 < bank.assetShareValue →
      convert_asset_shares_to_tokens s bank = some tok →
      convert_tokens_to_asset_shares tok bank = some s' →
      s' ≤ s) := by
  constructor
  · intro bank t t' s hv hvle h1 h2
    have hs := convert_tokens_to_asset_shares_eq hv h1
    have htok := convert_asset_shares_to_tokens_eq h2
    have hb1 : s * bank.assetShareValue ≤ (t : Int) * 2 ^ 96 := by
      rw [hs]
      exact Int.ediv_mul_le _ hv.ne'
    have hb2 : (t : Int) * 2 ^ 96 < (s + 1) * bank.assetShareValue := by
      rw [hs]
      exact Int.lt_ediv_add_one_mul_self _ hv
    have hup : (t' : Int) ≤ (t : Int) := by
      rw [htok]
      calc s * bank.assetShareValue / 2 ^ 96 ≤ (t : Int) * 2 ^ 96 / 2 ^ 96 :=
            Int.ediv_le_ediv (by positivity) hb1
        _ = (t : Int) := Int.mul_ediv_cancel _ (by positivity)
    have h3 : 1 + 2 ^ 96 * ((t : Int) - 1) ≤ s * bank.assetShareValue := by
      have hexp : (s + 1) * bank.assetShareValue
          = s * bank.assetShareValue + bank.assetShareValue := by ring
      rw [hexp] at hb2
      linarith
    have hlow : (t : Int) - 1 ≤ (t' : Int) := by
      rw [htok]
      calc (t : Int) - 1
          = (1 + 2 ^ 96 * ((t : Int) - 1)) / 2 ^ 96 := by
            rw [Int.add_mul_ediv_left 1 ((t : Int) - 1) (by positivity)]
            rw [Int.ediv_eq_zero_of_lt (by norm_num) (by norm_num)]
            ring
        _ ≤ s * bank.assetShareValue / 2 ^ 96 :=
            Int.ediv_le_ediv (by positivity) h3
    exact ⟨by omega, by omega⟩
  · intro bank s s' tok _hsnn hv h2 h1
    have htok := convert_asset_shares_to_tokens_eq h2
    have hs' := convert_tokens_to_asset_shares_eq hv h1
    have hb : (tok : Int) * 2 ^ 96 ≤ s * bank.assetShareValue := by
      rw [htok]
      exact Int.ediv_mul_le _ (by positivity)
    rw [hs']
    calc (tok : Int) * 2 ^ 96 / bank.assetShareValue
        ≤ s * bank.assetShareValue / bank.assetShareValue :=
          Int.ediv_le_ediv hv hb
      _ = s := Int.mul_ediv_cancel _ hv.ne'

theorem share_token_round_trip_amended_witness :
    ((7 : Nat) - 1 ≤ 7 ∧ (7 : Nat) ≤ 7) ∧ ((0 : Int) ≤ 2 ^ 47) :=
  ⟨share_token_round_trip_amended.1 sixDecimalUnitBank 7 7 (7 * 2 ^ 48)
      (by decide) (by decide) (by decide) (by decide),
    share_token_round_trip_amended.2 sixDecimalUnitBank (2 ^ 47) 0 0
      (by decide) (by decide) (by decide) (by decide)⟩

end Nix
